import Mathlib

/-!
EZC standard library (`ezc/ezc-std.c`): a shallow embedding.

The natives `F_std_*` and the type functions `EZC_TF_*` of `ezc-std.c` are
translated to Lean functions over an explicit virtual-machine state.

* The stack is a list of values, bottom first: the top of the stack is the
  last element, so the stack `s ++ [A, B]` has `B` on top.
* `ezc_int` is a signed machine integer of `w` bits; arithmetic on it is
  written over `Int` with an explicit two's-complement reduction `wrapInt`.
* A native returns an `Outcome`: either it returns a status together with the
  new state, or the run leaves defined behaviour (`Outcome.crash`): a read or
  write outside the stack or a buffer, a division by zero or one whose
  quotient is not a value of the type.
* `ezc_real`, the engine `ezc_vm_exec`, the registered C callbacks and the C
  library are not part of the file: they are the fields of `Env`.
-/

namespace Ezc

/-! ## Machine integers -/

/-- Two's-complement reduction of an integer to a signed `w`-bit value. -/
def wrapInt (w : Nat) (x : Int) : Int :=
  (x + 2 ^ (w - 1)) % 2 ^ w - 2 ^ (w - 1)

/-- The integer `x` is a value of the signed `w`-bit type. -/
def InRange (w : Nat) (x : Int) : Prop :=
  -(2 ^ (w - 1)) ≤ x ∧ x < 2 ^ (w - 1)

instance (w : Nat) (x : Int) : Decidable (InRange w x) := by
  unfold InRange
  exact inferInstance

/-! ## Values -/

/-- The source metadata of the program a block belongs to (`m_prog->src`,
`m_prog->src_name`). -/
structure ezcp_src where
  src : String
  src_name : String
  deriving DecidableEq, Repr

/-- An instruction (`ezci`): its `type` field, an opaque reference to the
compiled instruction range, and the originating program `m_prog`. -/
structure ezci where
  type : Int
  code : Nat
  m_prog : ezcp_src
  deriving DecidableEq, Repr

/-- A program handed to the engine (`ezcp`). -/
structure ezcp where
  body : ezci
  src : String
  src_name : String
  deriving DecidableEq, Repr

/-- A file value: the handle (`none` is `NULL`) and the owned name. -/
structure ezc_file where
  fp : Option Nat
  src_name : String
  deriving DecidableEq, Repr

/-- A runtime value (`ezc_obj`): the type tag with the payload of that type. -/
inductive ezc_obj (R : Type) where
  | none : ezc_obj R
  | wall : ezc_obj R
  | int (v : Int) : ezc_obj R
  | bool (b : Bool) : ezc_obj R
  | real (r : R) : ezc_obj R
  | str (s : String) : ezc_obj R
  | block (b : ezci) : ezc_obj R
  | file (f : ezc_file) : ezc_obj R
  deriving DecidableEq, Repr

/-- The type ids, in the registration order of `register_module`. -/
def EZC_TYPE_NONE : Nat := 0
def EZC_TYPE_WALL : Nat := 1
def EZC_TYPE_INT : Nat := 2
def EZC_TYPE_BOOL : Nat := 3
def EZC_TYPE_REAL : Nat := 4
def EZC_TYPE_STR : Nat := 5
def EZC_TYPE_BLOCK : Nat := 6
def EZC_TYPE_FILE : Nat := 7

/-- The `.type` field of a value. -/
def ezc_obj.type {R : Type} : ezc_obj R → Nat
  | .none => EZC_TYPE_NONE
  | .wall => EZC_TYPE_WALL
  | .int _ => EZC_TYPE_INT
  | .bool _ => EZC_TYPE_BOOL
  | .real _ => EZC_TYPE_REAL
  | .str _ => EZC_TYPE_STR
  | .block _ => EZC_TYPE_BLOCK
  | .file _ => EZC_TYPE_FILE

/-- The name a type is registered under (`TYPE_NAME`). -/
def TYPE_NAME {R : Type} : ezc_obj R → String
  | .none => "none"
  | .wall => "wall"
  | .int _ => "int"
  | .bool _ => "bool"
  | .real _ => "real"
  | .str _ => "str"
  | .block _ => "block"
  | .file _ => "file"

/-- A function entry (`ezc_func`): a registered C callback, named by its
index in the table of callbacks, or an interpreted block. -/
inductive ezc_func where
  | c (id : Nat) : ezc_func
  | ezc (b : ezci) : ezc_func
  deriving DecidableEq, Repr

/-! ## Virtual machine state -/

/-- What a native does besides changing the stack and the registry. -/
inductive Event (R : Type) where
  | error (msg : String) : Event R
  | warn (msg : String) : Event R
  | free (o : ezc_obj R) : Event R
  | exec (p : ezcp) : Event R
  | callc (id : Nat) : Event R
  | print (s : String) : Event R
  | fopen (name : String) : Event R
  | fwrite (fp : Nat) (s : String) : Event R
  deriving DecidableEq, Repr

/-- The state of `ezc_vm` the natives work on: the stack (bottom first), the
function registry (keys with their values, in insertion order) and the record
of events. -/
structure ezc_vm (R : Type) where
  stk : List (ezc_obj R)
  funcs : List (String × ezc_func)
  log : List (Event R)
  deriving DecidableEq, Repr

/-- How a run leaves defined behaviour. -/
inductive Fault where
  | stack_read
  | stack_write
  | buffer_write
  | digit_index
  | div_by_zero
  | div_overflow
  | loop_bound
  deriving DecidableEq, Repr

/-- The result of a native: a returned status with the new state, or a fault. -/
inductive Outcome (R : Type) where
  | ret (status : Int) (vm : ezc_vm R) : Outcome R
  | crash (f : Fault) : Outcome R
  deriving DecidableEq, Repr

/-- The parts of the program and its platform that `ezc-std.c` uses but does
not define. -/
structure Env (R : Type) where
  /-- width in bits of `ezc_int` -/
  w : Nat
  /-- width in bits of `int` -/
  wint : Nat
  real_add : R → R → R
  real_sub : R → R → R
  real_mul : R → R → R
  real_div : R → R → R
  real_fmod : R → R → R
  real_pow : R → R → R
  real_eq : R → R → Bool
  real_ofInt : Int → R
  real_ofBool : Bool → R
  /-- the `_bool` member read from a value whose `_real` member was stored -/
  bool_of_real_member : R → Bool
  sprintf_lf : R → String
  sprintf_d : Int → String
  sprintf_file : ezc_file → String
  fopen : String → Option Nat
  fwrite : Nat → String → Int
  /-- the engine: `ezc_vm_exec(vm, prog)` -/
  vm_exec : ezcp → ezc_vm R → Outcome R
  /-- the call of a registered C callback: `to_exec._c(vm)` -/
  call_c : Nat → ezc_vm R → Outcome R

/-! ## Stack primitives and utility macros -/

/-- Appends an event to the record. -/
def ezc_vm.emit {R : Type} (vm : ezc_vm R) (e : Event R) : ezc_vm R :=
  { vm with log := vm.log ++ [e] }

/-- The call `ezc_error(msg, ...)`: the diagnostic goes to the error channel. -/
def ezc_error {R : Type} (vm : ezc_vm R) (msg : String) : ezc_vm R :=
  vm.emit (.error msg)

/-- The call `ezc_warn(msg, ...)`. -/
def ezc_warn {R : Type} (vm : ezc_vm R) (msg : String) : ezc_vm R :=
  vm.emit (.warn msg)

/-- Modelled from the spec: `ezc_stk_push` is not under src/; push at the
top of the stack, which grows on demand. -/
def ezc_stk_push {R : Type} (vm : ezc_vm R) (o : ezc_obj R) : ezc_vm R :=
  { vm with stk := vm.stk ++ [o] }

/-- Modelled from the spec: `ezc_stk_pop` is not under src/; pop the top of
the stack, ownership goes to the caller `k`. Popping an empty stack reads
below its base. -/
def ezc_stk_pop {R : Type} (vm : ezc_vm R)
    (k : ezc_obj R → ezc_vm R → Outcome R) : Outcome R :=
  match vm.stk.getLast? with
  | some o => k o { vm with stk := vm.stk.dropLast }
  | Option.none => .crash .stack_read

/-- Modelled from the spec: `ezc_stk_get` is not under src/; read of the slot
at an absolute index, counted from the bottom. An index outside `0 .. n-1`
is a read outside the stack. -/
def ezc_stk_get {R : Type} (vm : ezc_vm R) (i : Int)
    (k : ezc_obj R → Outcome R) : Outcome R :=
  if 0 ≤ i then
    match vm.stk[i.toNat]? with
    | some o => k o
    | Option.none => .crash .stack_read
  else .crash .stack_read

/-- Modelled from the spec: `ezc_stk_peekn` is not under src/; read of the
slot `n` places below the top (`0` is the top), the stack keeps the value. -/
def ezc_stk_peekn {R : Type} (vm : ezc_vm R) (n : Nat)
    (k : ezc_obj R → Outcome R) : Outcome R :=
  ezc_stk_get vm ((vm.stk.length : Int) - 1 - (n : Int)) k

/-- Modelled from the spec: `ezc_stk_peek` is not under src/; read of the top. -/
def ezc_stk_peek {R : Type} (vm : ezc_vm R)
    (k : ezc_obj R → Outcome R) : Outcome R :=
  ezc_stk_peekn vm 0 k

/-- The assignment `vm->stk.base[i] = o` for a slot of the stack. -/
def stk_store {R : Type} (vm : ezc_vm R) (i : Int) (o : ezc_obj R)
    (k : ezc_vm R → Outcome R) : Outcome R :=
  if 0 ≤ i ∧ i < (vm.stk.length : Int) then
    k { vm with stk := vm.stk.set i.toNat o }
  else .crash .stack_write

/-- The statement `vm->stk.base[--vm->stk.n - 1] = o`: the counter drops by
one, then the new top slot is overwritten. -/
def stk_dec_store {R : Type} (vm : ezc_vm R) (o : ezc_obj R)
    (k : ezc_vm R → Outcome R) : Outcome R :=
  let vm1 := { vm with stk := vm.stk.dropLast }
  stk_store vm1 ((vm1.stk.length : Int) - 1) o k

/-- Modelled from the spec: `ezc_stk_swap` is not under src/; in-place swap of
two slots. -/
def ezc_stk_swap {R : Type} (vm : ezc_vm R) (i j : Int)
    (k : ezc_vm R → Outcome R) : Outcome R :=
  ezc_stk_get vm i fun a =>
  ezc_stk_get vm j fun b =>
  stk_store vm i b fun vm1 =>
  stk_store vm1 j a k

/-- The macro `REQ_N(_fname, _n)`: with fewer than `_n` items on the stack an
error is reported and the native returns 1; otherwise the native goes on. -/
def REQ_N {R : Type} (fname : String) (n : Int) (vm : ezc_vm R)
    (k : Outcome R) : Outcome R :=
  if (vm.stk.length : Int) < n then
    .ret 1 (ezc_error vm
      ("%d items are required for function \x27" ++ fname ++
        "\x27, stack only had %d"))
  else k

/-- The macro `OBJ_FREE(_obj)`: the release function of the type of the value
is called on it. -/
def OBJ_FREE {R : Type} (vm : ezc_vm R) (o : ezc_obj R) : ezc_vm R :=
  vm.emit (.free o)

/-- The macro `POP_FREE()`: pops the top and releases it. -/
def POP_FREE {R : Type} (vm : ezc_vm R) (k : ezc_vm R → Outcome R) : Outcome R :=
  ezc_stk_pop vm fun popped vm1 => k (OBJ_FREE vm1 popped)

/-- The macro `OBJ_TRUTHY(_obj, _val)`. -/
def OBJ_TRUTHY {R : Type} : ezc_obj R → Bool
  | .bool b => b
  | .int v => v != 0
  | _ => false

/-- The macro `OBJ_COPY(_obj, _from)`: the type tag is copied and the copy
function of the type (`EZC_TF_COPY`) fills the payload. The copy function of
`file` assigns the `_block` member; an `ezci` holds at least `type` and
`m_prog`, so that member lies over the handle and the name of the file and
the assignment carries both. -/
def OBJ_COPY {R : Type} (_E : Env R) : ezc_obj R → ezc_obj R
  | .none => .none
  | .wall => .wall
  | .int v => .int v
  | .bool b => .bool b
  | .real r => .real r
  | .str s => .str s
  | .block b => .block b
  | .file f => .file f

/-! ## Type functions: rendering -/

deriving instance DecidableEq for Except

/-- Modelled from the spec: the macro `EZC_DIGIT_STR` is not under src/; the
table `digitstr` of the characters of the digits, of which base 10 uses the
first ten. -/
def digitstr : List Char :=
  ['0', '1', '2', '3', '4', '5', '6', '7', '8', '9']

/-- The read `digitstr[k]`. -/
def digit_at (k : Int) : Option Char :=
  if 0 ≤ k then digitstr[k.toNat]? else Option.none

/-- The loop `do { strs[i++] = digitstr[val % base]; val /= base; }
while (val > 0);` of `EZC_TF_REPR(int)`. `strs` holds the slots `0 .. i-1`
written so far and `room` is the number of slots of `char strs[64]` from `i`
on: a write with no room left is outside the buffer. `%` and `/` are those
of C, truncating toward zero. -/
def repr_int_digits : Nat → List Char → Int → Except Fault (List Char)
  | 0, _, _ => .error .buffer_write
  | room + 1, strs, val =>
    match digit_at (Int.tmod val 10) with
    | Option.none => .error .digit_index
    | some c =>
      if 0 < Int.tdiv val 10 then repr_int_digits room (strs ++ [c]) (Int.tdiv val 10)
      else .ok (strs ++ [c])

/-- The body of the reversal loop: `tmp = strs[i]; strs[i] = strs[len-i-1];
strs[len-i-1] = tmp;`. -/
def repr_int_swap (strs : List Char) (i len : Nat) : List Char :=
  let tmp := strs.getD i ' '
  let strs1 := strs.set i (strs.getD (len - i - 1) ' ')
  strs1.set (len - i - 1) tmp

/-- The loop `for (i = ...; 2 * i < len; ++i)` of `EZC_TF_REPR(int)`, run for
at most `fuel` iterations. -/
def repr_int_reverse : Nat → List Char → Nat → Nat → Except Fault (List Char)
  | 0, strs, i, len => if 2 * i < len then .error .loop_bound else .ok strs
  | fuel + 1, strs, i, len =>
    if 2 * i < len then repr_int_reverse fuel (repr_int_swap strs i len) (i + 1) len
    else .ok strs

/-- The type function `EZC_TF_REPR(int)`: the string representation in base
10 of an `ezc_int` of `w` bits. -/
def EZC_TF_REPR_int (w : Nat) (v : Int) : Except Fault String :=
  let is_neg := decide (v < 0)
  let val := if v < 0 then wrapInt w (-v) else v
  let strs : List Char := if v < 0 then ['-'] else []
  match repr_int_digits (64 - strs.length) strs val with
  | .error f => .error f
  | .ok strs1 =>
    let len := strs1.length
    match repr_int_reverse len strs1 (if is_neg then 1 else 0) len with
    | .error f => .error f
    | .ok strs2 => .ok (String.mk (strs2.take len))

/-- The type functions `EZC_TF_REPR(...)` of the built-in types (`f_repr`). -/
def OBJ_REPR {R : Type} (E : Env R) : ezc_obj R → Except Fault String
  | .none => .ok "none"
  | .wall => .ok "|"
  | .int v => EZC_TF_REPR_int E.w v
  | .bool b => .ok (if b then "true" else "false")
  | .real r => .ok (E.sprintf_lf r)
  | .str s => .ok s
  | .block b => .ok ("\x7b...[" ++ E.sprintf_d b.type ++ "]\x7d")
  | .file f => .ok (E.sprintf_file f)

/-! ## Function registry -/

/-- Modelled from the spec: `ezc_vm_getfunci` is not under src/; the position
of a name in the function registry, `-1` when it is absent. -/
def ezc_vm_getfunci {R : Type} (vm : ezc_vm R) (name : String) : Int :=
  match vm.funcs.findIdx? (fun e => e.1 == name) with
  | some i => (i : Int)
  | Option.none => -1

/-- Modelled from the spec: `ezc_vm_addfunc` is not under src/; insert or
overwrite, the position of the first insertion is kept. -/
def ezc_vm_addfunc {R : Type} (vm : ezc_vm R) (name : String) (f : ezc_func) :
    ezc_vm R :=
  if vm.funcs.any (fun e => e.1 == name) then
    { vm with funcs := vm.funcs.map (fun e => if e.1 == name then (name, f) else e) }
  else { vm with funcs := vm.funcs ++ [(name, f)] }

/-- The phony program built around a block: `_prog.body = b; _prog.src =
b.m_prog->src; _prog.src_name = b.m_prog->src_name;`. -/
def prog_of_block (b : ezci) : ezcp :=
  { body := b, src := b.m_prog.src, src_name := b.m_prog.src_name }

/-- The call `ezc_vm_exec(vm, prog)`, recorded, and what follows it. -/
def ezc_vm_exec {R : Type} (E : Env R) (vm : ezc_vm R) (prog : ezcp)
    (k : Int → ezc_vm R → Outcome R) : Outcome R :=
  match E.vm_exec prog (vm.emit (.exec prog)) with
  | .ret status vm1 => k status vm1
  | .crash f => .crash f

/-! ## Basic natives -/

/-- The native `EZC_FUNC(none)`. -/
def F_std_none {R : Type} (_E : Env R) (vm : ezc_vm R) : Outcome R :=
  .ret 0 (ezc_stk_push vm .none)

/-- The native `EZC_FUNC(wall)`. -/
def F_std_wall {R : Type} (_E : Env R) (vm : ezc_vm R) : Outcome R :=
  .ret 0 (ezc_stk_push vm .wall)

/-- The native `EZC_FUNC(del)`. -/
def F_std_del {R : Type} (_E : Env R) (vm : ezc_vm R) : Outcome R :=
  REQ_N "del" 1 vm <|
  POP_FREE vm fun vm1 =>
  .ret 0 vm1

/-- The native `EZC_FUNC(copy)`. -/
def F_std_copy {R : Type} (E : Env R) (vm : ezc_vm R) : Outcome R :=
  REQ_N "copy" 1 vm <|
  ezc_stk_peek vm fun top =>
  let new_obj := OBJ_COPY E top
  .ret 0 (ezc_stk_push vm new_obj)

/-- The native `EZC_FUNC(under)`. -/
def F_std_under {R : Type} (E : Env R) (vm : ezc_vm R) : Outcome R :=
  REQ_N "under" 2 vm <|
  ezc_stk_peekn vm 1 fun under =>
  let new_obj := OBJ_COPY E under
  .ret 0 (ezc_stk_push vm new_obj)

/-- The native `EZC_FUNC(swap)`. -/
def F_std_swap {R : Type} (_E : Env R) (vm : ezc_vm R) : Outcome R :=
  REQ_N "swap" 2 vm <|
  ezc_stk_swap vm ((vm.stk.length : Int) - 1) ((vm.stk.length : Int) - 2) fun vm1 =>
  .ret 0 vm1

/-- The native `EZC_FUNC(funcdef)`. -/
def F_std_funcdef {R : Type} (_E : Env R) (vm : ezc_vm R) : Outcome R :=
  REQ_N "funcdef" 2 vm <|
  ezc_stk_pop vm fun f_name vm1 =>
  ezc_stk_pop vm1 fun f_body vm2 =>
  match f_name with
  | .str name =>
    match f_body with
    | .block body =>
      let vm3 := ezc_vm_addfunc vm2 name (.ezc body)
      let vm4 := OBJ_FREE vm3 f_name
      let vm5 := OBJ_FREE vm4 f_body
      .ret 0 vm5
    | _ =>
      .ret (-1) (ezc_error vm2
        "\x60body\x60 is not type \x60block\x60 in:\n[body] [name] funcdef!")
  | _ =>
    .ret (-1) (ezc_error vm2
      "\x60name\x60 is not type \x60str\x60 in:\n[body] [name] funcdef!")

/-- The native `EZC_FUNC(get)`. The arguments `idx._int+1` and `-idx._int` of
`REQ_N` are `ezc_int` expressions. -/
def F_std_get {R : Type} (E : Env R) (vm : ezc_vm R) : Outcome R :=
  REQ_N "get" 1 vm <|
  ezc_stk_pop vm fun idx vm1 =>
  match idx with
  | .int i =>
    if 0 ≤ i then
      REQ_N "get" (wrapInt E.w (i + 1)) vm1 <|
      ezc_stk_get vm1 i fun peeked =>
      let new_obj := OBJ_COPY E peeked
      stk_store vm1 ((vm1.stk.length : Int) - 1) new_obj fun vm2 =>
      .ret 0 vm2
    else if i < 0 then
      REQ_N "get" (wrapInt E.w (-i)) vm1 <|
      ezc_stk_get vm1 ((vm1.stk.length : Int) + i) fun peeked =>
      let new_obj := OBJ_COPY E peeked
      stk_store vm1 ((vm1.stk.length : Int) - 1) new_obj fun vm2 =>
      .ret 0 vm2
    else
      .ret (-1) (ezc_error vm1 "\x60idx\x60 must be >=0 in:\n[idx] get! (or $)")
  | _ =>
    .ret (-1) (ezc_error vm1 "\x60idx\x60 is not type \x60int\x60 in:\n[idx] get! (or $)")

/-- The native `EZC_FUNC(exec)`. -/
def F_std_exec {R : Type} (E : Env R) (vm : ezc_vm R) : Outcome R :=
  REQ_N "exec" 1 vm <|
  ezc_stk_pop vm fun code vm1 =>
  match code with
  | .str name =>
    let idx := ezc_vm_getfunci vm1 name
    if idx < 0 then
      .ret (-1) (ezc_error vm1 "Unknown function: \x27%s\x27")
    else
      match vm1.funcs[idx.toNat]? with
      | Option.none => .crash .stack_read
      | some (_, .c id) =>
        let vm2 := OBJ_FREE vm1 code
        E.call_c id (vm2.emit (.callc id))
      | some (_, .ezc b) =>
        ezc_vm_exec E vm1 (prog_of_block b) fun status vm2 =>
        .ret status (OBJ_FREE vm2 code)
  | .block b =>
    ezc_vm_exec E vm1 (prog_of_block b) fun status vm2 =>
    .ret status (OBJ_FREE vm2 code)
  | _ =>
    .ret (-1) (ezc_error vm1 "Invalid type for \x60!\x60 / \x60exec\x60: \x27%s\x27")

/-- The native `EZC_FUNC(repr)`. -/
def F_std_repr {R : Type} (E : Env R) (vm : ezc_vm R) : Outcome R :=
  REQ_N "repr" 1 vm <|
  ezc_stk_peekn vm 0 fun A =>
  match OBJ_REPR E A with
  | .error f => .crash f
  | .ok text =>
    let new_str : ezc_obj R := .str text
    stk_store vm ((vm.stk.length : Int) - 1) new_str fun vm1 =>
    .ret 0 (OBJ_FREE vm1 A)

/-- The native `EZC_FUNC(print)`. -/
def F_std_print {R : Type} (E : Env R) (vm : ezc_vm R) : Outcome R :=
  REQ_N "print" 1 vm <|
  ezc_stk_pop vm fun A vm1 =>
  match OBJ_REPR E A with
  | .error f => .crash f
  | .ok reprA =>
    let vm2 := vm1.emit (.print (reprA ++ "\n"))
    .ret 0 (OBJ_FREE vm2 A)

/-! ## Math natives -/

/-- The macro `TT_TYPE_ER(_fname)`. -/
def TT_TYPE_ER {R : Type} (vm : ezc_vm R) (fname : String) : ezc_vm R :=
  ezc_error vm ("Invalid type combo for func \x60" ++ fname ++ "\x60: %s, %s")

/-- The native `EZC_FUNC(add)`. `B` is the top of the stack and `A` the value
under it; a result replaces `A` after the counter dropped by one. -/
def F_std_add {R : Type} (E : Env R) (vm : ezc_vm R) : Outcome R :=
  REQ_N "add" 2 vm <|
  ezc_stk_peekn vm 0 fun B =>
  ezc_stk_peekn vm 1 fun A =>
  if A.type = B.type then
    match A, B with
    | .str a, .str b =>
      stk_dec_store vm (.str (a ++ b)) fun vm1 =>
      .ret 0 (OBJ_FREE vm1 B)
    | .int a, .int b =>
      stk_dec_store vm (.int (wrapInt E.w (a + b))) fun vm1 =>
      .ret 0 vm1
    | .real a, .real b =>
      stk_dec_store vm (.real (E.real_add a b)) fun vm1 =>
      .ret 0 vm1
    | _, _ =>
      .ret (-1) (TT_TYPE_ER vm "add")
  else
    match A, B with
    | .int a, .real b =>
      let res := E.real_add (E.real_ofInt a) b
      stk_dec_store vm (.real res) fun vm1 =>
      .ret 0 vm1
    | .real a, .int b =>
      stk_dec_store vm (.real (E.real_add a (E.real_ofInt b))) fun vm1 =>
      .ret 0 vm1
    | _, _ =>
      POP_FREE vm fun vm1 =>
      POP_FREE vm1 fun vm2 =>
      .ret (-1) (TT_TYPE_ER vm2 "add")

/-- The native `EZC_FUNC(sub)`. Its two branches for operands of different
types are those of `add`, with `+`. -/
def F_std_sub {R : Type} (E : Env R) (vm : ezc_vm R) : Outcome R :=
  REQ_N "sub" 2 vm <|
  ezc_stk_peekn vm 0 fun B =>
  ezc_stk_peekn vm 1 fun A =>
  if A.type = B.type then
    match A, B with
    | .int a, .int b =>
      stk_dec_store vm (.int (wrapInt E.w (a - b))) fun vm1 =>
      .ret 0 vm1
    | .real a, .real b =>
      stk_dec_store vm (.real (E.real_sub a b)) fun vm1 =>
      .ret 0 vm1
    | _, _ =>
      .ret (-1) (TT_TYPE_ER vm "sub")
  else
    match A, B with
    | .int a, .real b =>
      let res := E.real_add (E.real_ofInt a) b
      stk_dec_store vm (.real res) fun vm1 =>
      .ret 0 vm1
    | .real a, .int b =>
      stk_dec_store vm (.real (E.real_add a (E.real_ofInt b))) fun vm1 =>
      .ret 0 vm1
    | _, _ =>
      POP_FREE vm fun vm1 =>
      POP_FREE vm1 fun vm2 =>
      .ret (-1) (TT_TYPE_ER vm2 "sub")

/-- The native `EZC_FUNC(mul)`. -/
def F_std_mul {R : Type} (E : Env R) (vm : ezc_vm R) : Outcome R :=
  REQ_N "mul" 2 vm <|
  ezc_stk_peekn vm 0 fun B =>
  ezc_stk_peekn vm 1 fun A =>
  if A.type = B.type then
    match A, B with
    | .int a, .int b =>
      stk_dec_store vm (.int (wrapInt E.w (a * b))) fun vm1 =>
      .ret 0 vm1
    | .real a, .real b =>
      stk_dec_store vm (.real (E.real_mul a b)) fun vm1 =>
      .ret 0 vm1
    | _, _ =>
      .ret (-1) (TT_TYPE_ER vm "mul")
  else
    match A, B with
    | .int a, .real b =>
      let res := E.real_mul (E.real_ofInt a) b
      stk_dec_store vm (.real res) fun vm1 =>
      .ret 0 vm1
    | .real a, .int b =>
      stk_dec_store vm (.real (E.real_mul a (E.real_ofInt b))) fun vm1 =>
      .ret 0 vm1
    | _, _ =>
      POP_FREE vm fun vm1 =>
      POP_FREE vm1 fun vm2 =>
      .ret (-1) (TT_TYPE_ER vm2 "mul")

/-- The native `EZC_FUNC(div)`. The integer `/` of C truncates toward zero;
it is undefined for a zero divisor and for the most negative value divided
by -1, whose quotient is not a value of the type. -/
def F_std_div {R : Type} (E : Env R) (vm : ezc_vm R) : Outcome R :=
  REQ_N "div" 2 vm <|
  ezc_stk_peekn vm 0 fun B =>
  ezc_stk_peekn vm 1 fun A =>
  if A.type = B.type then
    match A, B with
    | .int a, .int b =>
      if b = 0 then .crash .div_by_zero
      else if a = -(2 ^ (E.w - 1)) ∧ b = -1 then .crash .div_overflow
      else
        stk_dec_store vm (.int (wrapInt E.w (Int.tdiv a b))) fun vm1 =>
        .ret 0 vm1
    | .real a, .real b =>
      stk_dec_store vm (.real (E.real_div a b)) fun vm1 =>
      .ret 0 vm1
    | _, _ =>
      .ret (-1) (TT_TYPE_ER vm "div")
  else
    match A, B with
    | .int a, .real b =>
      let res := E.real_div (E.real_ofInt a) b
      stk_dec_store vm (.real res) fun vm1 =>
      .ret 0 vm1
    | .real a, .int b =>
      stk_dec_store vm (.real (E.real_div a (E.real_ofInt b))) fun vm1 =>
      .ret 0 vm1
    | _, _ =>
      POP_FREE vm fun vm1 =>
      POP_FREE vm1 fun vm2 =>
      .ret (-1) (TT_TYPE_ER vm2 "div")

/-- The native `EZC_FUNC(mod)`. The integer `%` of C is the remainder of the
truncating division; it is undefined where that division is: for a zero
divisor and for the most negative value with the divisor -1. -/
def F_std_mod {R : Type} (E : Env R) (vm : ezc_vm R) : Outcome R :=
  REQ_N "mod" 2 vm <|
  ezc_stk_peekn vm 0 fun B =>
  ezc_stk_peekn vm 1 fun A =>
  if A.type = B.type then
    match A, B with
    | .int a, .int b =>
      if b = 0 then .crash .div_by_zero
      else if a = -(2 ^ (E.w - 1)) ∧ b = -1 then .crash .div_overflow
      else
        stk_dec_store vm (.int (wrapInt E.w (Int.tmod a b))) fun vm1 =>
        .ret 0 vm1
    | .real a, .real b =>
      stk_dec_store vm (.real (E.real_fmod a b)) fun vm1 =>
      .ret 0 vm1
    | _, _ =>
      .ret (-1) (TT_TYPE_ER vm "mod")
  else
    match A, B with
    | .int a, .real b =>
      let res := E.real_fmod (E.real_ofInt a) b
      stk_dec_store vm (.real res) fun vm1 =>
      .ret 0 vm1
    | .real a, .int b =>
      stk_dec_store vm (.real (E.real_fmod a (E.real_ofInt b))) fun vm1 =>
      .ret 0 vm1
    | _, _ =>
      POP_FREE vm fun vm1 =>
      POP_FREE vm1 fun vm2 =>
      .ret (-1) (TT_TYPE_ER vm2 "mod")

/-- The loop `do { if (b & 1) r *= a2iter; a2iter *= a2iter; b >>= 1; }
while (b > 0);` of `EZC_FUNC(pow)`, entered with `b >= 0`, where `b & 1` is
`b % 2` and `b >> 1` is `b / 2`; run for at most `fuel` iterations. -/
def pow_loop (w : Nat) : Nat → Int → Int → Int → Except Fault Int
  | 0, _, _, _ => .error .loop_bound
  | fuel + 1, r, a2iter, b =>
    let r1 := if b % 2 ≠ 0 then wrapInt w (r * a2iter) else r
    let a2iter1 := wrapInt w (a2iter * a2iter)
    let b1 := b / 2
    if 0 < b1 then pow_loop w fuel r1 a2iter1 b1 else .ok r1

/-- The integer branch of `EZC_FUNC(pow)`: `r = a^b`. An `ezc_int` of `w` bits
is halved to zero in at most `w` steps. -/
def pow_int (w : Nat) (a b : Int) : Except Fault Int :=
  if b < 0 then .ok 0
  else if b = 1 then .ok a
  else pow_loop w w 1 a b

/-- The native `EZC_FUNC(pow)`. -/
def F_std_pow {R : Type} (E : Env R) (vm : ezc_vm R) : Outcome R :=
  REQ_N "pow" 2 vm <|
  ezc_stk_pop vm fun B vm1 =>
  ezc_stk_pop vm1 fun A vm2 =>
  if A.type = B.type then
    match A, B with
    | .int a, .int b =>
      match pow_int E.w a b with
      | .error f => .crash f
      | .ok r =>
        let vm3 := ezc_stk_push vm2 (.int r)
        .ret 0 (OBJ_FREE (OBJ_FREE vm3 A) B)
    | .real a, .real b =>
      let vm3 := ezc_stk_push vm2 (.real (E.real_pow a b))
      .ret 0 (OBJ_FREE (OBJ_FREE vm3 A) B)
    | _, _ =>
      let vm3 := ezc_error vm2 "Invalid type for func \x60pow\x60: %s"
      .ret 1 (OBJ_FREE (OBJ_FREE vm3 A) B)
  else
    match A, B with
    | .int a, .real b =>
      let res := E.real_pow (E.real_ofInt a) b
      .ret 0 (ezc_stk_push vm2 (.real res))
    | .real a, .int b =>
      .ret 0 (ezc_stk_push vm2 (.real (E.real_pow a (E.real_ofInt b))))
    | _, _ =>
      POP_FREE vm2 fun vm3 =>
      POP_FREE vm3 fun vm4 =>
      .ret (-1) (TT_TYPE_ER vm4 "mod")

/-! ## Comparison and control natives -/

/-- The native `EZC_FUNC(eq)`. For two reals the pushed value has the type
`bool` and the comparison stored in its `_real` member. -/
def F_std_eq {R : Type} (E : Env R) (vm : ezc_vm R) : Outcome R :=
  REQ_N "eq" 2 vm <|
  ezc_stk_pop vm fun B vm1 =>
  ezc_stk_pop vm1 fun A vm2 =>
  if A.type = B.type then
    match A, B with
    | .int a, .int b =>
      let vm3 := ezc_stk_push vm2 (.bool (decide (a = b)))
      .ret 0 (OBJ_FREE (OBJ_FREE vm3 A) B)
    | .real a, .real b =>
      let vm3 := ezc_stk_push vm2
        (.bool (E.bool_of_real_member (E.real_ofBool (E.real_eq a b))))
      .ret 0 (OBJ_FREE (OBJ_FREE vm3 A) B)
    | _, _ =>
      let vm3 := ezc_error vm2 "Invalid type for func \x60eq\x60: %s"
      .ret 1 (OBJ_FREE (OBJ_FREE vm3 A) B)
  else
    let vm3 := ezc_error vm2 "Invalid type combo for func \x60eq\x60: %s, %s"
    .ret 1 (OBJ_FREE (OBJ_FREE vm3 A) B)

/-- The native `EZC_FUNC(ifel)`. The status of the call of `exec` is not
looked at. -/
def F_std_ifel {R : Type} (E : Env R) (vm : ezc_vm R) : Outcome R :=
  REQ_N "ifel" 3 vm <|
  ezc_stk_pop vm fun b_else vm1 =>
  ezc_stk_pop vm1 fun b_if vm2 =>
  ezc_stk_pop vm2 fun cond vm3 =>
  let cond_val := OBJ_TRUTHY cond
  let vm4 := if cond_val then ezc_stk_push vm3 b_if else ezc_stk_push vm3 b_else
  match F_std_exec E vm4 with
  | .crash f => .crash f
  | .ret _ vm5 =>
    .ret 0 (OBJ_FREE (OBJ_FREE (OBJ_FREE vm5 b_else) b_if) cond)

/-- The loop `while (num_to_iter < vm->stk.n && ezc_stk_peekn(&vm->stk,
num_to_iter).type != EZC_TYPE_WALL) num_to_iter++;` of `EZC_FUNC(foreach)`:
the number of values above the topmost wall, or of all values when the stack
has no wall. -/
def foreach_num_to_iter {R : Type} (stk : List (ezc_obj R)) : Nat :=
  (stk.reverse.takeWhile (fun o => decide (o.type ≠ EZC_TYPE_WALL))).length

/-- The loop `for (i = 0; i < num_to_iter; ++i)` of `EZC_FUNC(foreach)` that
pushes `argstack.base[i]` and runs the program, over the values of `argstack`
from `i` on. -/
def foreach_loop {R : Type} (E : Env R) (prog : ezcp) :
    List (ezc_obj R) → ezc_vm R → Outcome R
  | [], vm => .ret 0 vm
  | arg :: rest, vm =>
    ezc_vm_exec E (ezc_stk_push vm arg) prog fun status vm1 =>
    if status ≠ 0 then .ret status vm1 else foreach_loop E prog rest vm1

/-- The native `EZC_FUNC(foreach)`. -/
def F_std_foreach {R : Type} (E : Env R) (vm : ezc_vm R) : Outcome R :=
  REQ_N "foreach" 1 vm <|
  ezc_stk_pop vm fun body vm1 =>
  match body with
  | .block b =>
    let num_to_iter := foreach_num_to_iter vm1.stk
    if num_to_iter < 1 then .ret 0 (OBJ_FREE vm1 body)
    else
      let stk_offset := vm1.stk.length - num_to_iter
      let argstack := vm1.stk.drop stk_offset
      let vm2 := { vm1 with stk := vm1.stk.take stk_offset }
      ezc_stk_peek vm2 fun top =>
      let after_wall (vm3 : ezc_vm R) : Outcome R :=
        foreach_loop E (prog_of_block b) argstack vm3
      if top.type = EZC_TYPE_WALL then ezc_stk_pop vm2 fun _ vm3 => after_wall vm3
      else after_wall vm2
  | _ =>
    let vm2 := ezc_stk_push vm1 body
    .ret 1 (ezc_error vm2
      "Expected the block for \x60foreach\x60 to be of type \x60block\x60 (like \x7b...\x7d), but got \x60%s\x60")

/-- The loop `for (i = imin; i < imax; ++i)` of `EZC_FUNC(forrange)`, run for
at most `fuel` iterations; `done` is what is released on every way out. -/
def forrange_loop {R : Type} (E : Env R) (prog : ezcp) (imax : Int)
    (done : ezc_vm R → ezc_vm R) : Nat → Int → ezc_vm R → Outcome R
  | 0, i, vm => if i < imax then .crash .loop_bound else .ret 0 (done vm)
  | fuel + 1, i, vm =>
    if i < imax then
      ezc_vm_exec E (ezc_stk_push vm (.int i)) prog fun status vm1 =>
      if status ≠ 0 then .ret status (done vm1)
      else forrange_loop E prog imax done fuel (i + 1) vm1
    else .ret 0 (done vm)

/-- The native `EZC_FUNC(forrange)`. The bounds are stored in `int`
variables. -/
def F_std_forrange {R : Type} (E : Env R) (vm : ezc_vm R) : Outcome R :=
  REQ_N "forrange" 3 vm <|
  ezc_stk_pop vm fun body vm1 =>
  ezc_stk_pop vm1 fun omax vm2 =>
  ezc_stk_pop vm2 fun omin vm3 =>
  match body with
  | .block b =>
    match omax with
    | .int vmax =>
      match omin with
      | .int vmin =>
        let imax := wrapInt E.wint vmax
        let imin := wrapInt E.wint vmin
        forrange_loop E (prog_of_block b) imax
          (fun v => OBJ_FREE (OBJ_FREE (OBJ_FREE v body) omin) omax)
          (imax - imin).toNat imin vm3
      | _ =>
        .ret 1 (ezc_error vm3
          "forrange!: lower bound was not type \x60int\x60 (got \x60%s\x60)")
    | _ =>
      .ret 1 (ezc_error vm3
        "forrange!: upper bound was not type \x60int\x60 (got \x60%s\x60)")
  | _ =>
    .ret 1 (ezc_error vm3 "forrange!: body was not type \x60block\x60 (got \x60%s\x60)")

/-! ## File natives and generators -/

/-- The native `EZC_FUNC(open)`. -/
def F_std_open {R : Type} (E : Env R) (vm : ezc_vm R) : Outcome R :=
  REQ_N "open" 1 vm <|
  ezc_stk_pop vm fun arg vm1 =>
  match arg with
  | .str fname =>
    let vm2 := vm1.emit (.fopen fname)
    match E.fopen fname with
    | Option.none =>
      let vm3 := ezc_error vm2 "Couldn\x27t open file \x27%s\x27"
      .ret (-1) (OBJ_FREE vm3 arg)
    | some fp =>
      .ret 0 (ezc_stk_push vm2 (.file { fp := some fp, src_name := fname }))
  | _ =>
    let vm2 := OBJ_FREE vm1 arg
    .ret 2 (ezc_error vm2 "Unsupported type for \x60open!\x60: %s")

/-- The native `EZC_FUNC(write)`. -/
def F_std_write {R : Type} (E : Env R) (vm : ezc_vm R) : Outcome R :=
  REQ_N "write" 2 vm <|
  ezc_stk_pop vm fun arg vm1 =>
  ezc_stk_peek vm1 fun fp =>
  match fp with
  | .file f =>
    match f.fp with
    | Option.none =>
      let vm2 := ezc_error vm1 "FILE for write! is NULL"
      .ret 1 (OBJ_FREE vm2 arg)
    | some h =>
      match arg with
      | .str text =>
        let nbytes := E.fwrite h text
        let vm2 := (vm1.emit (.fwrite h text)).emit (.fwrite h "\n")
        let vm3 := if nbytes ≠ (text.utf8ByteSize : Int) then
          ezc_warn vm2 "Writing %d bytes to \x27%s\x27 failed, wrote %d" else vm2
        .ret 0 (OBJ_FREE vm3 arg)
      | _ =>
        let vm2 := OBJ_FREE vm1 arg
        .ret 2 (ezc_error vm2 "Unsupported type for \x60open!\x60: %s")
  | _ =>
    let vm2 := ezc_error vm1 "Object under top is not a FILE type (in write!)"
    .ret 1 (OBJ_FREE vm2 arg)

/-- Modelled from the spec: `ezc_stk_resize` is not under src/; the stack is
given the size `n`: values above it are dropped, slots up to it are reserved,
their content to be stored by the caller. -/
def ezc_stk_resize {R : Type} (vm : ezc_vm R) (n : Int)
    (k : ezc_vm R → Outcome R) : Outcome R :=
  if 0 ≤ n then
    k { vm with stk := vm.stk.take n.toNat ++
          List.replicate (n.toNat - vm.stk.length) .none }
  else .crash .stack_write

/-- The loop `for (i = start_idx; i < vm->stk.n; ++i)` of `EZC_FUNC(X)`, run
for at most `fuel` iterations. -/
def X_loop {R : Type} (start_idx : Int) : Nat → Int → ezc_vm R →
    (ezc_vm R → Outcome R) → Outcome R
  | 0, i, vm, k => if i < (vm.stk.length : Int) then .crash .loop_bound else k vm
  | fuel + 1, i, vm, k =>
    if i < (vm.stk.length : Int) then
      stk_store vm i (.int (i - start_idx)) fun vm1 =>
      X_loop start_idx fuel (i + 1) vm1 k
    else k vm

/-- The native `EZC_FUNC(X)` (expand). -/
def F_std_X {R : Type} (E : Env R) (vm : ezc_vm R) : Outcome R :=
  REQ_N "X" 1 vm <|
  ezc_stk_pop vm fun arg vm1 =>
  match arg with
  | .int n =>
    let start_idx : Int := vm1.stk.length
    ezc_stk_resize vm1 (wrapInt E.w ((vm1.stk.length : Int) + n)) fun vm2 =>
    X_loop start_idx (vm2.stk.length - vm1.stk.length) start_idx vm2 fun vm3 =>
    .ret 0 (OBJ_FREE vm3 arg)
  | _ =>
    let vm2 := OBJ_FREE vm1 arg
    .ret 2 (ezc_error vm2 "Unsupported type")

/-! ## A concrete environment

Integers stand in for the reals, the engine and the callbacks return at once
with status 0; used to run the natives on concrete stacks. -/

/-- A concrete environment with a 64-bit `ezc_int` and a 32-bit `int`. -/
def demoEnv : Env Int where
  w := 64
  wint := 32
  real_add := fun a b => a + b
  real_sub := fun a b => a - b
  real_mul := fun a b => a * b
  real_div := fun a b => Int.tdiv a b
  real_fmod := fun a b => Int.tmod a b
  real_pow := fun a b => a ^ b.toNat
  real_eq := fun a b => decide (a = b)
  real_ofInt := fun a => a
  real_ofBool := fun b => if b then 1 else 0
  bool_of_real_member := fun r => decide (r ≠ 0)
  sprintf_lf := fun _ => "real"
  sprintf_d := fun _ => "int"
  sprintf_file := fun f => "FILE: [" ++ f.src_name ++ "]"
  fopen := fun _ => some 3
  fwrite := fun _ text => text.utf8ByteSize
  vm_exec := fun _ vm => .ret 0 vm
  call_c := fun _ vm => .ret 0 vm

/-- A second concrete environment, with an engine that runs three bodies told
apart by the `code` of the block: the body 0 is `print!`, the body 1 fails
with status 7 and touches nothing, every other body is `print!` that fails
with status 7, touching nothing, when the top of the stack is `Int 2`. -/
def loopEnv : Env Int :=
  { demoEnv with
    vm_exec := fun p vm =>
      match p.body.code with
      | 0 => F_std_print demoEnv vm
      | 1 => .ret 7 vm
      | _ =>
        match vm.stk.getLast? with
        | some (.int 2) => .ret 7 vm
        | _ => F_std_print demoEnv vm }

/-! ## Naming the natives -/

/-- The six arithmetic natives registered by `register_module`. -/
inductive ArithOp where
  | add | sub | mul | div | mod | pow
  deriving DecidableEq, Repr

/-- The native an arithmetic operation names. -/
def ArithOp.run {R : Type} (op : ArithOp) (E : Env R) (vm : ezc_vm R) : Outcome R :=
  match op with
  | .add => F_std_add E vm
  | .sub => F_std_sub E vm
  | .mul => F_std_mul E vm
  | .div => F_std_div E vm
  | .mod => F_std_mod E vm
  | .pow => F_std_pow E vm

/-- The name of an arithmetic native as its source spells it in `REQ_N` and
in `TT_TYPE_ER`. -/
def ArithOp.fname : ArithOp → String
  | .add => "add"
  | .sub => "sub"
  | .mul => "mul"
  | .div => "div"
  | .mod => "mod"
  | .pow => "pow"

/-- A value is well formed when an integer payload is a value of the type
`ezc_int`. -/
def ezc_obj.wf {R : Type} (w : Nat) : ezc_obj R → Prop
  | .int v => InRange w v
  | _ => True

/-- The natives of `register_module` that begin with `REQ_N`. -/
inductive Native where
  | del | copy | under | swap | funcdef | get | exec | repr | print
  | add | sub | mul | div | mod | pow | eq | ifel | foreach | forrange
  | open_ | write | X
  deriving DecidableEq, Repr

/-- The native a name stands for. -/
def Native.run {R : Type} (n : Native) (E : Env R) (vm : ezc_vm R) : Outcome R :=
  match n with
  | .del => F_std_del E vm
  | .copy => F_std_copy E vm
  | .under => F_std_under E vm
  | .swap => F_std_swap E vm
  | .funcdef => F_std_funcdef E vm
  | .get => F_std_get E vm
  | .exec => F_std_exec E vm
  | .repr => F_std_repr E vm
  | .print => F_std_print E vm
  | .add => F_std_add E vm
  | .sub => F_std_sub E vm
  | .mul => F_std_mul E vm
  | .div => F_std_div E vm
  | .mod => F_std_mod E vm
  | .pow => F_std_pow E vm
  | .eq => F_std_eq E vm
  | .ifel => F_std_ifel E vm
  | .foreach => F_std_foreach E vm
  | .forrange => F_std_forrange E vm
  | .open_ => F_std_open E vm
  | .write => F_std_write E vm
  | .X => F_std_X E vm

/-- The number of items the first statement `REQ_N(name, n)` of a native
asks for. -/
def Native.req_n : Native → Nat
  | .del => 1
  | .copy => 1
  | .under => 2
  | .swap => 2
  | .funcdef => 2
  | .get => 1
  | .exec => 1
  | .repr => 1
  | .print => 1
  | .add => 2
  | .sub => 2
  | .mul => 2
  | .div => 2
  | .mod => 2
  | .pow => 2
  | .eq => 2
  | .ifel => 3
  | .foreach => 1
  | .forrange => 3
  | .open_ => 1
  | .write => 2
  | .X => 1

/-! ## Lemmas on machine integers -/

theorem two_pow_pred_double {w : Nat} (hw : 0 < w) :
    (2 : Int) ^ w = 2 * 2 ^ (w - 1) := by
  obtain ⟨k, rfl⟩ : ∃ k, w = k + 1 := ⟨w - 1, by omega⟩
  simp [pow_succ, mul_comm]

theorem wrapInt_inRange {w : Nat} (hw : 0 < w) (x : Int) :
    InRange w (wrapInt w x) := by
  have h2 := two_pow_pred_double hw
  have hpos : (0 : Int) < 2 ^ w := by positivity
  have h0 := Int.emod_nonneg (x + 2 ^ (w - 1)) (ne_of_gt hpos)
  have h1 := Int.emod_lt_of_pos (x + 2 ^ (w - 1)) hpos
  unfold InRange wrapInt
  constructor <;> omega

theorem wrapInt_of_inRange {w : Nat} (hw : 0 < w) {x : Int} (hx : InRange w x) :
    wrapInt w x = x := by
  have h2 := two_pow_pred_double hw
  obtain ⟨hlo, hhi⟩ := hx
  unfold wrapInt
  rw [Int.emod_eq_of_lt (by omega) (by omega)]
  omega

theorem wrapInt_modEq (w : Nat) (x : Int) :
    wrapInt w x ≡ x [ZMOD 2 ^ w] := by
  unfold wrapInt
  have h : (x + 2 ^ (w - 1)) % 2 ^ w ≡ x + 2 ^ (w - 1) [ZMOD 2 ^ w] :=
    Int.mod_modEq _ _
  have h3 := Int.ModEq.sub_right (2 ^ (w - 1)) h
  simpa using h3

theorem wrapInt_congr {w : Nat} {x y : Int} (h : x ≡ y [ZMOD 2 ^ w]) :
    wrapInt w x = wrapInt w y := by
  unfold wrapInt
  have h1 : (x + 2 ^ (w - 1)) % 2 ^ w = (y + 2 ^ (w - 1)) % 2 ^ w :=
    Int.ModEq.add_right _ h
  rw [h1]

/-! ## Lemmas on the stack primitives -/

section StackLemmas

variable {R : Type}

@[simp] theorem ezc_stk_pop_snoc (s : List (ezc_obj R)) (x : ezc_obj R)
    (f : List (String × ezc_func)) (l : List (Event R))
    (k : ezc_obj R → ezc_vm R → Outcome R) :
    ezc_stk_pop { stk := s ++ [x], funcs := f, log := l } k
      = k x { stk := s, funcs := f, log := l } := by
  simp [ezc_stk_pop]

@[simp] theorem ezc_stk_pop_snoc2 (s : List (ezc_obj R)) (x y : ezc_obj R)
    (f : List (String × ezc_func)) (l : List (Event R))
    (k : ezc_obj R → ezc_vm R → Outcome R) :
    ezc_stk_pop { stk := s ++ [x, y], funcs := f, log := l } k
      = k y { stk := s ++ [x], funcs := f, log := l } := by
  have h : s ++ [x, y] = (s ++ [x]) ++ [y] := by simp
  rw [h]
  exact ezc_stk_pop_snoc _ _ _ _ _

@[simp] theorem ezc_stk_pop_snoc3 (s : List (ezc_obj R)) (x y z : ezc_obj R)
    (f : List (String × ezc_func)) (l : List (Event R))
    (k : ezc_obj R → ezc_vm R → Outcome R) :
    ezc_stk_pop { stk := s ++ [x, y, z], funcs := f, log := l } k
      = k z { stk := s ++ [x, y], funcs := f, log := l } := by
  have h : s ++ [x, y, z] = (s ++ [x, y]) ++ [z] := by simp
  rw [h]
  exact ezc_stk_pop_snoc _ _ _ _ _

theorem REQ_N_pass (fname : String) (n : Int) (vm : ezc_vm R) (k : Outcome R)
    (h : n ≤ (vm.stk.length : Int)) : REQ_N fname n vm k = k := by
  unfold REQ_N
  rw [if_neg (by omega)]

theorem REQ_N_fail (fname : String) (n : Int) (vm : ezc_vm R) (k : Outcome R)
    (h : (vm.stk.length : Int) < n) :
    REQ_N fname n vm k = .ret 1 (ezc_error vm
      ("%d items are required for function \x27" ++ fname ++
        "\x27, stack only had %d")) := by
  unfold REQ_N
  rw [if_pos h]

end StackLemmas

section StackLemmas2

variable {R : Type}

@[simp] theorem ezc_stk_peekn_zero_snoc (s : List (ezc_obj R)) (x : ezc_obj R)
    (f : List (String × ezc_func)) (l : List (Event R)) (k : ezc_obj R → Outcome R) :
    ezc_stk_peekn { stk := s ++ [x], funcs := f, log := l } 0 k = k x := by
  unfold ezc_stk_peekn ezc_stk_get
  have h : ((s ++ [x]).length : Int) - 1 - ((0 : Nat) : Int) = (s.length : Int) := by
    simp
  simp only [h]
  simp

@[simp] theorem ezc_stk_peekn_zero_snoc2 (s : List (ezc_obj R)) (x y : ezc_obj R)
    (f : List (String × ezc_func)) (l : List (Event R)) (k : ezc_obj R → Outcome R) :
    ezc_stk_peekn { stk := s ++ [x, y], funcs := f, log := l } 0 k = k y := by
  have h : s ++ [x, y] = (s ++ [x]) ++ [y] := by simp
  rw [h]
  exact ezc_stk_peekn_zero_snoc _ _ _ _ _

@[simp] theorem ezc_stk_peekn_one_snoc2 (s : List (ezc_obj R)) (x y : ezc_obj R)
    (f : List (String × ezc_func)) (l : List (Event R)) (k : ezc_obj R → Outcome R) :
    ezc_stk_peekn { stk := s ++ [x, y], funcs := f, log := l } 1 k = k x := by
  unfold ezc_stk_peekn ezc_stk_get
  have h : ((s ++ [x, y]).length : Int) - 1 - ((1 : Nat) : Int) = (s.length : Int) := by
    simp
    omega
  have hg : (s ++ [x, y])[(s.length : Int).toNat]? = some x := by
    rw [Int.toNat_ofNat, List.getElem?_append_right (Nat.le_refl _)]
    simp
  simp only [h]
  rw [if_pos (by omega), hg]

@[simp] theorem stk_dec_store_snoc2 (s : List (ezc_obj R)) (x y o : ezc_obj R)
    (f : List (String × ezc_func)) (l : List (Event R)) (k : ezc_vm R → Outcome R) :
    stk_dec_store { stk := s ++ [x, y], funcs := f, log := l } o k
      = k { stk := s ++ [o], funcs := f, log := l } := by
  have h : s ++ [x, y] = (s ++ [x]) ++ [y] := by simp
  unfold stk_dec_store stk_store
  simp only [h, List.dropLast_concat]
  simp

end StackLemmas2


/-! ## Integer power -/

theorem pow_loop_spec (w : Nat) (hw : 0 < w) : ∀ (fuel : Nat) (r a2iter b : Int),
    InRange w r → 0 ≤ b → b < 2 ^ fuel → 0 < fuel →
    pow_loop w fuel r a2iter b = .ok (wrapInt w (r * a2iter ^ b.toNat)) := by
  intro fuel
  induction fuel with
  | zero => intro r a2iter b _ _ _ h; exact absurd h (by decide)
  | succ fuel ih =>
    intro r a2iter b hr hb0 hb _
    obtain ⟨n, rfl⟩ := Int.eq_ofNat_of_zero_le hb0
    have hsplit : n = 2 * (n / 2) + n % 2 := (Nat.div_add_mod n 2).symm
    have hr1 : InRange w (if (n : Int) % 2 ≠ 0 then wrapInt w (r * a2iter) else r) := by
      split
      · exact wrapInt_inRange hw _
      · exact hr
    have hr1eq : (if (n : Int) % 2 ≠ 0 then wrapInt w (r * a2iter) else r)
        ≡ r * a2iter ^ (n % 2) [ZMOD 2 ^ w] := by
      rcases Nat.mod_two_eq_zero_or_one n with h | h
      · have : (n : Int) % 2 = 0 := by omega
        simp [this, h]
      · have : (n : Int) % 2 = 1 := by omega
        simp [this, h]
        exact wrapInt_modEq w _
    unfold pow_loop
    simp only []
    by_cases hpos : 0 < (n : Int) / 2
    · rw [if_pos hpos]
      have hf : 0 < fuel := by
        rcases Nat.eq_zero_or_pos fuel with h | h
        · subst h
          simp at hb
          omega
        · exact h
      have hlt : ((n : Int) / 2) < 2 ^ fuel := by
        have : (n : Int) < 2 * 2 ^ fuel := by
          have := hb
          rw [pow_succ] at this
          omega
        omega
      rw [ih _ _ _ hr1 (by omega) hlt hf]
      congr 1
      apply wrapInt_congr
      have hdiv : ((n : Int) / 2).toNat = n / 2 := by omega
      rw [hdiv]
      have e1 : (wrapInt w (a2iter * a2iter)) ^ (n / 2) ≡ (a2iter * a2iter) ^ (n / 2)
          [ZMOD 2 ^ w] := Int.ModEq.pow _ (wrapInt_modEq w _)
      have e2 := Int.ModEq.mul hr1eq e1
      refine e2.trans ?_
      have : r * a2iter ^ (n % 2) * (a2iter * a2iter) ^ (n / 2)
          = r * a2iter ^ (Int.toNat (n : Int)) := by
        simp only [Int.toNat_ofNat]
        conv_rhs => rw [hsplit]
        rw [pow_add, pow_mul, ← pow_two]
        ring
      rw [this]
    · rw [if_neg hpos]
      have hn : n / 2 = 0 := by omega
      have hn1 : n = n % 2 := by omega
      congr 1
      rw [← wrapInt_of_inRange hw hr1]
      apply wrapInt_congr
      refine hr1eq.trans ?_
      simp only [Int.toNat_ofNat]
      rw [← hn1]

theorem pow_int_spec (w : Nat) (hw : 1 < w) (a b : Int)
    (ha : InRange w a) (hb : InRange w b) :
    pow_int w a b = .ok (if b < 0 then 0 else wrapInt w (a ^ b.toNat)) := by
  unfold pow_int
  by_cases h0 : b < 0
  · simp [h0]
  · rw [if_neg h0, if_neg h0]
    by_cases h1 : b = 1
    · subst h1
      simp [wrapInt_of_inRange (by omega : 0 < w) ha]
    · rw [if_neg h1]
      have h1r : InRange w 1 := by
        have h2 : (2 : Int) ^ 1 ≤ 2 ^ (w - 1) :=
          pow_le_pow_right₀ (by norm_num) (by omega)
        have hp : (0 : Int) < 2 ^ (w - 1) := by positivity
        constructor <;> omega
      have hlt : b < 2 ^ w := by
        have := two_pow_pred_double (by omega : 0 < w)
        have hp : (0 : Int) < 2 ^ (w - 1) := by positivity
        obtain ⟨_, h⟩ := hb
        omega
      rw [pow_loop_spec w (by omega) w 1 a b h1r (by omega) hlt (by omega)]
      simp

theorem F_std_pow_int_int {R : Type} (E : Env R) (s : List (ezc_obj R))
    (fs : List (String × ezc_func)) (lg : List (Event R)) (a b : Int)
    (hw : 1 < E.w) (ha : InRange E.w a) (hb : InRange E.w b) :
    F_std_pow E { stk := s ++ [.int a, .int b], funcs := fs, log := lg }
      = .ret 0 { stk := s ++ [.int (if b < 0 then 0 else wrapInt E.w (a ^ b.toNat))],
                 funcs := fs, log := lg ++ [.free (.int a), .free (.int b)] } := by
  unfold F_std_pow
  rw [REQ_N_pass _ _ _ _ (by simp)]
  simp [ezc_obj.type, pow_int_spec E.w hw a b ha hb, ezc_stk_push, OBJ_FREE,
    ezc_vm.emit]

/-- C1: for every stack `s` and all values `a`, `b` of the integer type, `pow`
on `s ++ [Int a, Int b]` returns status 0 and leaves `s ++ [Int r]`, where
`r = 0` when `b < 0` and `r` is `a^b` reduced to the width of the integer
type when `b >= 0`; for `b = 0` the result is 1. Both operands are released,
nothing else happens. -/
theorem C1_pow_int {R : Type} (E : Env R) (s : List (ezc_obj R))
    (fs : List (String × ezc_func)) (lg : List (Event R)) (a b : Int)
    (hw : 1 < E.w) (ha : InRange E.w a) (hb : InRange E.w b) :
    ∃ r : Int,
      F_std_pow E { stk := s ++ [.int a, .int b], funcs := fs, log := lg }
        = .ret 0 { stk := s ++ [.int r], funcs := fs,
                   log := lg ++ [.free (.int a), .free (.int b)] }
      ∧ (b < 0 → r = 0)
      ∧ (0 ≤ b → r = wrapInt E.w (a ^ b.toNat))
      ∧ (b = 0 → r = 1) := by
  refine ⟨if b < 0 then 0 else wrapInt E.w (a ^ b.toNat), ?_, ?_, ?_, ?_⟩
  · exact F_std_pow_int_int E s fs lg a b hw ha hb
  · intro h
    rw [if_pos h]
  · intro h
    rw [if_neg (by omega)]
  · intro h
    subst h
    have h1 : InRange E.w 1 := by
      have h2 : (2 : Int) ^ 1 ≤ 2 ^ (E.w - 1) :=
        pow_le_pow_right₀ (by norm_num) (by omega)
      constructor <;> omega
    simpa using wrapInt_of_inRange (by omega) h1

/-- C1, the instance of the specification: `Int 2, Int 10 pow` gives
`Int 1024`, with a 64-bit integer type. -/
theorem C1_pow_int_witness :
    F_std_pow demoEnv { stk := [.int 2, .int 10], funcs := [], log := [] }
      = .ret 0 { stk := [.int 1024], funcs := [],
                 log := [.free (.int 2), .free (.int 10)] } := by
  obtain ⟨r, h, _, h2, _⟩ :=
    C1_pow_int demoEnv [] [] [] 2 10 (by decide) (by decide) (by decide)
  have hr : r = 1024 := by
    rw [h2 (by decide)]
    decide
  subst hr
  simpa using h

/-! ## Integer rendering -/

theorem repr_int_swap_length (strs : List Char) (i len : Nat) :
    (repr_int_swap strs i len).length = strs.length := by
  simp [repr_int_swap]

theorem repr_int_swap_getElem? (strs : List Char) (i len j : Nat)
    (hlen : strs.length = len) (hi : 2 * i < len) :
    (repr_int_swap strs i len)[j]? =
      if j = len - i - 1 then strs[i]?
      else if j = i then strs[len - i - 1]? else strs[j]? := by
  have h1 : i < strs.length := by omega
  have h2 : len - i - 1 < strs.length := by omega
  unfold repr_int_swap
  simp only [List.getD_eq_getElem?_getD, List.getElem?_eq_getElem h1,
    List.getElem?_eq_getElem h2, Option.getD_some]
  rw [List.getElem?_set]
  by_cases hj : j = len - i - 1
  · subst hj
    simp [h2]
  · rw [if_neg (fun h => hj h.symm), if_neg hj, List.getElem?_set]
    by_cases hji : j = i
    · subst hji
      simp [h1]
    · rw [if_neg (fun h => hji h.symm), if_neg hji]

theorem repr_int_reverse_spec : ∀ (fuel : Nat) (strs : List Char) (i len : Nat),
    strs.length = len → len ≤ 2 * i + 2 * fuel →
    ∃ out, repr_int_reverse fuel strs i len = .ok out ∧ out.length = len ∧
      ∀ j, out[j]? = if i ≤ j ∧ j + i < len then strs[len - 1 - j]? else strs[j]? := by
  intro fuel
  induction fuel with
  | zero =>
    intro strs i len hlen hf
    refine ⟨strs, ?_, hlen, ?_⟩
    · unfold repr_int_reverse
      rw [if_neg (by omega)]
    · intro j
      rw [if_neg (by omega)]
  | succ fuel ih =>
    intro strs i len hlen hf
    unfold repr_int_reverse
    by_cases hc : 2 * i < len
    · rw [if_pos hc]
      obtain ⟨out, ho, hol, hget⟩ := ih (repr_int_swap strs i len) (i + 1) len
        (by rw [repr_int_swap_length]; exact hlen) (by omega)
      refine ⟨out, ho, hol, ?_⟩
      intro j
      rw [hget j]
      by_cases hin : i + 1 ≤ j ∧ j + (i + 1) < len
      · rw [if_pos hin, if_pos (by omega), repr_int_swap_getElem? _ _ _ _ hlen hc,
          if_neg (by omega), if_neg (by omega)]
      · rw [if_neg hin, repr_int_swap_getElem? _ _ _ _ hlen hc]
        by_cases hj1 : j = len - i - 1
        · rw [if_pos hj1, if_pos (by omega)]
          congr 1
          omega
        · rw [if_neg hj1]
          by_cases hj2 : j = i
          · rw [if_pos hj2, if_pos (by omega)]
            congr 1
            omega
          · rw [if_neg hj2, if_neg (by omega)]
    · rw [if_neg hc]
      refine ⟨strs, rfl, hlen, ?_⟩
      intro j
      rw [if_neg (by omega)]

theorem repr_int_reverse_all (strs : List Char) :
    repr_int_reverse strs.length strs 0 strs.length = .ok strs.reverse := by
  obtain ⟨out, ho, hol, hget⟩ :=
    repr_int_reverse_spec strs.length strs 0 strs.length rfl (by omega)
  rw [ho]
  congr 1
  apply List.ext_getElem?
  intro j
  rw [hget j]
  by_cases hj : j < strs.length
  · rw [if_pos (by omega), List.getElem?_reverse hj]
  · rw [if_neg (by omega), List.getElem?_eq_none (by omega),
      List.getElem?_eq_none (by simp; omega)]

theorem digit_at_ofNat (d : Nat) (h : d < 10) :
    digit_at (d : Int) = some (Nat.digitChar d) := by
  interval_cases d <;> rfl

theorem repr_int_digits_spec : ∀ (room : Nat) (strs : List Char) (n : Nat),
    0 < n → (Nat.digits 10 n).length ≤ room →
    repr_int_digits room strs (n : Int)
      = .ok (strs ++ (Nat.digits 10 n).map Nat.digitChar) := by
  intro room
  induction room with
  | zero =>
    intro strs n hn hroom
    have : Nat.digits 10 n ≠ [] := Nat.digits_ne_nil_iff_ne_zero.mpr (by omega)
    exact absurd (List.length_eq_zero.mp (Nat.le_zero.mp hroom)) this
  | succ room ih =>
    intro strs n hn hroom
    have hd : Nat.digits 10 n = n % 10 :: Nat.digits 10 (n / 10) :=
      Nat.digits_def' (by norm_num) hn
    have hm : Int.tmod (n : Int) 10 = ((n % 10 : Nat) : Int) := by
      rw [Int.tmod_eq_emod (by omega) (by norm_num)]
      simp
    have hq : Int.tdiv (n : Int) 10 = ((n / 10 : Nat) : Int) := by
      rw [Int.tdiv_eq_ediv (by omega) (by norm_num)]
      simp
    unfold repr_int_digits
    rw [hm, digit_at_ofNat _ (Nat.mod_lt _ (by norm_num)), hq]
    simp only []
    by_cases hpos : 0 < n / 10
    · rw [if_pos (by exact_mod_cast hpos)]
      rw [hd] at hroom
      simp at hroom
      rw [ih _ _ hpos hroom, hd]
      simp
    · rw [if_neg (by exact_mod_cast hpos)]
      have h0 : n / 10 = 0 := by omega
      rw [hd, h0]
      simp

theorem digits_length_le_64 (w : Nat) (hw : w ≤ 128) (n : Nat)
    (hn : (n : Int) < 2 ^ (w - 1)) : (Nat.digits 10 n).length ≤ 64 := by
  rcases Nat.eq_zero_or_pos n with h | h
  · subst h
    simp
  · rw [Nat.digits_len 10 n (by norm_num) (by omega)]
    have h1 : n < 2 ^ (w - 1) := by exact_mod_cast hn
    have h2 : 2 ^ (w - 1) ≤ 2 ^ 127 := Nat.pow_le_pow_right (by norm_num) (by omega)
    have h3 : (2 : Nat) ^ 127 < 10 ^ 64 := by norm_num
    have h4 : Nat.log 10 n < 64 := Nat.log_lt_of_lt_pow (by omega) (by omega)
    omega

theorem toDigitsCore_eq_digits : ∀ (fuel n : Nat) (ds : List Char),
    0 < n → n < fuel →
    Nat.toDigitsCore 10 fuel n ds = (Nat.digits 10 n).reverse.map Nat.digitChar ++ ds := by
  intro fuel
  induction fuel with
  | zero => intro n ds _ h; omega
  | succ fuel ih =>
    intro n ds hn hf
    have hd : Nat.digits 10 n = n % 10 :: Nat.digits 10 (n / 10) :=
      Nat.digits_def' (by norm_num) hn
    unfold Nat.toDigitsCore
    simp only []
    by_cases h0 : n / 10 = 0
    · rw [if_pos h0, hd, h0]
      simp
    · rw [if_neg h0, ih _ _ (by omega) (by omega), hd]
      simp

theorem toString_eq_digits (n : Nat) (hn : 0 < n) :
    toString n = String.mk ((Nat.digits 10 n).reverse.map Nat.digitChar) := by
  show Nat.repr n = _
  unfold Nat.repr Nat.toDigits
  rw [toDigitsCore_eq_digits _ _ _ hn (by omega)]
  simp [List.asString]

/-- C3: for every non-negative value `v` of an integer type of at most 128
bits, the int render operation produces exactly the decimal digits of `v`,
most significant first, with no sign and no leading zeros (the single digit
`0` for `v = 0`): the text is the decimal numeral of `v`, its length is the
number of decimal digits of `v` and is at most 64, the size of the buffer. -/
theorem C3_repr_int_nonneg (w : Nat) (v : Int) (hw : w ≤ 128)
    (hv : InRange w v) (h0 : 0 ≤ v) :
    ∃ text : List Char,
      EZC_TF_REPR_int w v = .ok (String.mk text)
      ∧ text = (if v = 0 then ['0']
                else (Nat.digits 10 v.toNat).reverse.map Nat.digitChar)
      ∧ String.mk text = toString v.toNat
      ∧ text.length = max 1 (Nat.digits 10 v.toNat).length
      ∧ text.length ≤ 64 := by
  obtain ⟨n, rfl⟩ := Int.eq_ofNat_of_zero_le h0
  have hlen := digits_length_le_64 w hw n hv.2
  rcases Nat.eq_zero_or_pos n with hn | hn
  · subst hn
    exact ⟨['0'], by rfl, by simp, by rfl, by simp, by simp⟩
  · have hne : (n : Int) ≠ 0 := by omega
    have hnn : ¬ ((n : Int) < 0) := by omega
    have hdl : 0 < (Nat.digits 10 n).length := by
      have : Nat.digits 10 n ≠ [] := Nat.digits_ne_nil_iff_ne_zero.mpr (by omega)
      exact List.length_pos.mpr this
    refine ⟨(Nat.digits 10 n).reverse.map Nat.digitChar, ?_, ?_, ?_, ?_, ?_⟩
    · unfold EZC_TF_REPR_int
      simp only [hnn, if_false, decide_False, List.length_nil, Nat.sub_zero]
      rw [repr_int_digits_spec 64 [] n hn hlen]
      simp only [List.nil_append, Bool.false_eq_true, if_false]
      rw [repr_int_reverse_all]
      simp only []
      rw [List.map_reverse]
      congr 2
      rw [← List.length_reverse]
      exact List.take_length _
    · simp [hne]
    · simp only [Int.toNat_ofNat]
      exact (toString_eq_digits n hn).symm
    · simp
      omega
    · simpa using hlen

/-- C3, at a concrete value: 1024 in a 64-bit integer type renders as the
four characters `1024`. -/
theorem C3_repr_int_nonneg_witness :
    ∃ text : List Char,
      EZC_TF_REPR_int 64 1024 = .ok (String.mk text)
      ∧ text = (if (1024 : Int) = 0 then ['0']
                else (Nat.digits 10 (1024 : Int).toNat).reverse.map Nat.digitChar)
      ∧ String.mk text = toString (1024 : Int).toNat
      ∧ text.length = max 1 (Nat.digits 10 (1024 : Int).toNat).length
      ∧ text.length ≤ 64 :=
  C3_repr_int_nonneg 64 1024 (by decide) (by decide) (by decide)

/-! ## Integer arithmetic -/

theorem tmod_inRange {w : Nat} {a : Int} (b : Int) (ha : InRange w a) :
    InRange w (Int.tmod a b) := by
  have hle : (Int.tmod a b).natAbs ≤ a.natAbs := by
    rcases a with a | a <;> rcases b with b | b <;>
      simp [Int.tmod, Int.natAbs_neg] <;>
      exact Nat.mod_le _ _
  have hs1 : 0 ≤ a → 0 ≤ Int.tmod a b := fun h => Int.tmod_nonneg b h
  have hs2 : a ≤ 0 → Int.tmod a b ≤ 0 := by
    intro h
    rcases a with a | a
    · have h0 : a = 0 := by
        have : (a : Int) ≤ 0 := h
        omega
      subst h0
      simp
    · rcases b with b | b
      · show -Int.ofNat (Nat.succ a % b) ≤ 0
        exact Int.neg_nonpos_of_nonneg (Int.ofNat_nonneg _)
      · show -Int.ofNat (Nat.succ a % Nat.succ b) ≤ 0
        exact Int.neg_nonpos_of_nonneg (Int.ofNat_nonneg _)
  obtain ⟨h1, h2⟩ := ha
  constructor <;> omega

theorem tdiv_inRange {w : Nat} {a b : Int} (ha : InRange w a)
    (hne : ¬ (a = -(2 ^ (w - 1)) ∧ b = -1)) : InRange w (Int.tdiv a b) := by
  obtain ⟨h1, h2⟩ := ha
  have hp : (0 : Int) < 2 ^ (w - 1) := by positivity
  by_cases hb1 : b = 1
  · subst hb1
    rw [Int.tdiv_one]
    exact ⟨h1, h2⟩
  by_cases hbm : b = -1
  · subst hbm
    rw [Int.tdiv_neg, Int.tdiv_one]
    have : a ≠ -(2 ^ (w - 1)) := fun h => hne ⟨h, rfl⟩
    constructor <;> omega
  by_cases hb0 : b = 0
  · subst hb0
    rw [Int.tdiv_zero]
    constructor <;> omega
  have hq : (Int.tdiv a b).natAbs = a.natAbs / b.natAbs := Int.natAbs_tdiv a b
  have hb2 : 2 ≤ b.natAbs := by omega
  have hle : a.natAbs / b.natAbs ≤ a.natAbs / 2 :=
    Nat.div_le_div_left hb2 (by norm_num)
  have ha2 : (a.natAbs : Int) ≤ 2 ^ (w - 1) := by omega
  have h3 : ((a.natAbs / 2 : Nat) : Int) < 2 ^ (w - 1) := by
    have : ((a.natAbs / 2 : Nat) : Int) = (a.natAbs : Int) / 2 := by simp
    rw [this]
    omega
  have h4 : ((Int.tdiv a b).natAbs : Int) < 2 ^ (w - 1) := by
    rw [hq]
    have : ((a.natAbs / b.natAbs : Nat) : Int) ≤ ((a.natAbs / 2 : Nat) : Int) := by
      exact_mod_cast hle
    omega
  constructor <;> omega

theorem F_std_add_int_int {R : Type} (E : Env R) (s : List (ezc_obj R))
    (fs : List (String × ezc_func)) (lg : List (Event R)) (a b : Int) :
    F_std_add E { stk := s ++ [.int a, .int b], funcs := fs, log := lg }
      = .ret 0 { stk := s ++ [.int (wrapInt E.w (a + b))], funcs := fs, log := lg } := by
  unfold F_std_add
  rw [REQ_N_pass _ _ _ _ (by simp)]
  simp [ezc_obj.type]

theorem F_std_sub_int_int {R : Type} (E : Env R) (s : List (ezc_obj R))
    (fs : List (String × ezc_func)) (lg : List (Event R)) (a b : Int) :
    F_std_sub E { stk := s ++ [.int a, .int b], funcs := fs, log := lg }
      = .ret 0 { stk := s ++ [.int (wrapInt E.w (a - b))], funcs := fs, log := lg } := by
  unfold F_std_sub
  rw [REQ_N_pass _ _ _ _ (by simp)]
  simp [ezc_obj.type]

theorem F_std_mul_int_int {R : Type} (E : Env R) (s : List (ezc_obj R))
    (fs : List (String × ezc_func)) (lg : List (Event R)) (a b : Int) :
    F_std_mul E { stk := s ++ [.int a, .int b], funcs := fs, log := lg }
      = .ret 0 { stk := s ++ [.int (wrapInt E.w (a * b))], funcs := fs, log := lg } := by
  unfold F_std_mul
  rw [REQ_N_pass _ _ _ _ (by simp)]
  simp [ezc_obj.type]

theorem F_std_div_int_int {R : Type} (E : Env R) (s : List (ezc_obj R))
    (fs : List (String × ezc_func)) (lg : List (Event R)) (a b : Int) (hb0 : b ≠ 0)
    (hov : ¬ (a = -(2 ^ (E.w - 1)) ∧ b = -1)) :
    F_std_div E { stk := s ++ [.int a, .int b], funcs := fs, log := lg }
      = .ret 0 { stk := s ++ [.int (wrapInt E.w (Int.tdiv a b))],
                 funcs := fs, log := lg } := by
  unfold F_std_div
  rw [REQ_N_pass _ _ _ _ (by simp)]
  simp [ezc_obj.type, hb0, hov]

theorem F_std_mod_int_int {R : Type} (E : Env R) (s : List (ezc_obj R))
    (fs : List (String × ezc_func)) (lg : List (Event R)) (a b : Int) (hb0 : b ≠ 0)
    (hov : ¬ (a = -(2 ^ (E.w - 1)) ∧ b = -1)) :
    F_std_mod E { stk := s ++ [.int a, .int b], funcs := fs, log := lg }
      = .ret 0 { stk := s ++ [.int (wrapInt E.w (Int.tmod a b))],
                 funcs := fs, log := lg } := by
  unfold F_std_mod
  rw [REQ_N_pass _ _ _ _ (by simp)]
  simp [ezc_obj.type, hb0, hov]

theorem F_std_div_overflow {R : Type} (E : Env R) (s : List (ezc_obj R))
    (fs : List (String × ezc_func)) (lg : List (Event R)) :
    F_std_div E { stk := s ++ [.int (-(2 ^ (E.w - 1))), .int (-1)], funcs := fs, log := lg }
      = .crash .div_overflow := by
  unfold F_std_div
  rw [REQ_N_pass _ _ _ _ (by simp)]
  simp [ezc_obj.type]

theorem F_std_mod_overflow {R : Type} (E : Env R) (s : List (ezc_obj R))
    (fs : List (String × ezc_func)) (lg : List (Event R)) :
    F_std_mod E { stk := s ++ [.int (-(2 ^ (E.w - 1))), .int (-1)], funcs := fs, log := lg }
      = .crash .div_overflow := by
  unfold F_std_mod
  rw [REQ_N_pass _ _ _ _ (by simp)]
  simp [ezc_obj.type]

/-- Same-type integer arithmetic where it is defined. For every stack `s`
and values `a`, `b` of the integer type, `add`, `sub`, `mul` on
`s ++ [Int a, Int b]` return 0 and leave the sum, the difference and the
product, reduced to the integer width; for `b != 0`, other than the most
negative value with the divisor -1, `div` leaves the quotient truncated
toward zero and `mod` leaves `a - q*b` for that quotient `q`. Nothing else of
the state changes. -/
theorem int_arith_defined {R : Type} (E : Env R) (s : List (ezc_obj R))
    (fs : List (String × ezc_func)) (lg : List (Event R)) (a b : Int)
    (hw : 0 < E.w) (ha : InRange E.w a) (_hb : InRange E.w b) :
    F_std_add E { stk := s ++ [.int a, .int b], funcs := fs, log := lg }
      = .ret 0 { stk := s ++ [.int (wrapInt E.w (a + b))], funcs := fs, log := lg }
    ∧ F_std_sub E { stk := s ++ [.int a, .int b], funcs := fs, log := lg }
      = .ret 0 { stk := s ++ [.int (wrapInt E.w (a - b))], funcs := fs, log := lg }
    ∧ F_std_mul E { stk := s ++ [.int a, .int b], funcs := fs, log := lg }
      = .ret 0 { stk := s ++ [.int (wrapInt E.w (a * b))], funcs := fs, log := lg }
    ∧ (b ≠ 0 → ¬ (a = -(2 ^ (E.w - 1)) ∧ b = -1) →
        F_std_div E { stk := s ++ [.int a, .int b], funcs := fs, log := lg }
          = .ret 0 { stk := s ++ [.int (Int.tdiv a b)], funcs := fs, log := lg }
        ∧ F_std_mod E { stk := s ++ [.int a, .int b], funcs := fs, log := lg }
          = .ret 0 { stk := s ++ [.int (a - Int.tdiv a b * b)],
                     funcs := fs, log := lg }) := by
  refine ⟨F_std_add_int_int E s fs lg a b, F_std_sub_int_int E s fs lg a b,
    F_std_mul_int_int E s fs lg a b, ?_⟩
  intro hb0 hne
  constructor
  · rw [F_std_div_int_int E s fs lg a b hb0 hne,
      wrapInt_of_inRange hw (tdiv_inRange ha hne)]
  · have hm : wrapInt E.w (Int.tmod a b) = a - Int.tdiv a b * b := by
      rw [wrapInt_of_inRange hw (tmod_inRange b ha), Int.tmod_def, mul_comm]
    rw [F_std_mod_int_int E s fs lg a b hb0 hne, hm]

/-- The instance of the specification: `Int 7, Int 2 div` gives `Int 3`; with
it 7 + 2, 7 - 2, 7 * 2 and 7 mod 2, above an unrelated value. -/
theorem int_arith_defined_example :
    F_std_add demoEnv { stk := [.wall] ++ [.int 7, .int 2], funcs := [], log := [] }
      = .ret 0 { stk := [.wall, .int 9], funcs := [], log := [] }
    ∧ F_std_sub demoEnv { stk := [.wall] ++ [.int 7, .int 2], funcs := [], log := [] }
      = .ret 0 { stk := [.wall, .int 5], funcs := [], log := [] }
    ∧ F_std_mul demoEnv { stk := [.wall] ++ [.int 7, .int 2], funcs := [], log := [] }
      = .ret 0 { stk := [.wall, .int 14], funcs := [], log := [] }
    ∧ F_std_div demoEnv { stk := [.wall] ++ [.int 7, .int 2], funcs := [], log := [] }
      = .ret 0 { stk := [.wall, .int 3], funcs := [], log := [] }
    ∧ F_std_mod demoEnv { stk := [.wall] ++ [.int 7, .int 2], funcs := [], log := [] }
      = .ret 0 { stk := [.wall, .int 1], funcs := [], log := [] } := by
  decide

/-- C4: integer `div` and `mod` on the most negative value and -1. For every
stack `s`, `div` and `mod` on `s ++ [Int MIN, Int -1]`, a non-zero divisor,
go straight to `A._int /= B._int`, resp. `A._int %= B._int`: the quotient is
not a value of the integer type, the division is undefined and no status is
returned. With a 64-bit integer type this is the stack
`[Int -9223372036854775808, Int -1]`. -/
theorem C4_div_mod_most_negative_by_minus_one {R : Type} (E : Env R)
    (s : List (ezc_obj R)) (fs : List (String × ezc_func)) (lg : List (Event R)) :
    F_std_div E { stk := s ++ [.int (-(2 ^ (E.w - 1))), .int (-1)], funcs := fs, log := lg }
      = .crash .div_overflow
    ∧ F_std_mod E { stk := s ++ [.int (-(2 ^ (E.w - 1))), .int (-1)], funcs := fs, log := lg }
      = .crash .div_overflow
    ∧ F_std_div demoEnv
        { stk := [.int (-9223372036854775808), .int (-1)], funcs := [], log := [] }
      = .crash .div_overflow
    ∧ F_std_mod demoEnv
        { stk := [.int (-9223372036854775808), .int (-1)], funcs := [], log := [] }
      = .crash .div_overflow
    ∧ InRange 64 (-9223372036854775808) ∧ InRange 64 (-1) ∧ (-1 : Int) ≠ 0 := by
  refine ⟨F_std_div_overflow E s fs lg, F_std_mod_overflow E s fs lg, ?_, ?_, ?_, ?_, ?_⟩ <;>
    decide

/-- C2: the int render operation on a negative value of two digits: for -12
the text is `-21`, not the decimal numeral `-12`. The reversal loop starts
at slot 1 behind the sign and still mirrors around the middle of the whole
buffer, so the sign and the last character written stay in place. The native
`repr` leaves that text on the stack. -/
theorem C2_repr_int_negative_reversed :
    EZC_TF_REPR_int 64 (-12) = .ok "-21"
    ∧ F_std_repr demoEnv { stk := [.int (-12)], funcs := [], log := [] }
      = .ret 0 { stk := [.str "-21"], funcs := [], log := [.free (.int (-12))] } := by
  decide

/-- C5: `sub` on operands of different numeric types adds. For every stack
`s`, integer `a` and real `b`, `sub` on `s ++ [Int a, Real b]` returns 0 and
leaves `s ++ [Real (toReal a + b)]`, and on `s ++ [Real b, Int a]` it leaves
`s ++ [Real (b + toReal a)]`; in the concrete environment `Int 5, Real 2 sub`
leaves `Real 7`, where the difference is 3. -/
theorem C5_sub_mixed_adds {R : Type} (E : Env R) (s : List (ezc_obj R))
    (fs : List (String × ezc_func)) (lg : List (Event R)) (a : Int) (b : R) :
    F_std_sub E { stk := s ++ [.int a, .real b], funcs := fs, log := lg }
      = .ret 0 { stk := s ++ [.real (E.real_add (E.real_ofInt a) b)],
                 funcs := fs, log := lg }
    ∧ F_std_sub E { stk := s ++ [.real b, .int a], funcs := fs, log := lg }
      = .ret 0 { stk := s ++ [.real (E.real_add b (E.real_ofInt a))],
                 funcs := fs, log := lg }
    ∧ F_std_sub demoEnv { stk := [.int 5, .real 2], funcs := [], log := [] }
      = .ret 0 { stk := [.real 7], funcs := [], log := [] }
    ∧ demoEnv.real_sub (demoEnv.real_ofInt 5) 2 = 3 := by
  refine ⟨?_, ?_, by decide, by decide⟩
  · unfold F_std_sub
    rw [REQ_N_pass _ _ _ _ (by simp)]
    simp [ezc_obj.type, EZC_TYPE_INT, EZC_TYPE_REAL]
  · unfold F_std_sub
    rw [REQ_N_pass _ _ _ _ (by simp)]
    simp [ezc_obj.type, EZC_TYPE_INT, EZC_TYPE_REAL]

theorem ArithOp_run_int_real {R : Type} (E : Env R) (op : ArithOp)
    (s : List (ezc_obj R)) (fs : List (String × ezc_func)) (lg : List (Event R))
    (a : Int) (b : R) :
    ∃ (x : R) (lg1 : List (Event R)),
      op.run E { stk := s ++ [.int a, .real b], funcs := fs, log := lg }
        = .ret 0 { stk := s ++ [.real x], funcs := fs, log := lg1 } := by
  cases op
  all_goals
    simp only [ArithOp.run]
    first
      | unfold F_std_add | unfold F_std_sub | unfold F_std_mul
      | unfold F_std_div | unfold F_std_mod | unfold F_std_pow
    rw [REQ_N_pass _ _ _ _ (by simp)]
    simp [ezc_obj.type, EZC_TYPE_INT, EZC_TYPE_REAL, ezc_stk_push, OBJ_FREE,
      ezc_vm.emit]

theorem ArithOp_run_real_int {R : Type} (E : Env R) (op : ArithOp)
    (s : List (ezc_obj R)) (fs : List (String × ezc_func)) (lg : List (Event R))
    (a : R) (b : Int) :
    ∃ (x : R) (lg1 : List (Event R)),
      op.run E { stk := s ++ [.real a, .int b], funcs := fs, log := lg }
        = .ret 0 { stk := s ++ [.real x], funcs := fs, log := lg1 } := by
  cases op
  all_goals
    simp only [ArithOp.run]
    first
      | unfold F_std_add | unfold F_std_sub | unfold F_std_mul
      | unfold F_std_div | unfold F_std_mod | unfold F_std_pow
    rw [REQ_N_pass _ _ _ _ (by simp)]
    simp [ezc_obj.type, EZC_TYPE_INT, EZC_TYPE_REAL, ezc_stk_push, OBJ_FREE,
      ezc_vm.emit]

theorem ArithOp_run_real_real {R : Type} (E : Env R) (op : ArithOp)
    (s : List (ezc_obj R)) (fs : List (String × ezc_func)) (lg : List (Event R))
    (a b : R) :
    ∃ (x : R) (lg1 : List (Event R)),
      op.run E { stk := s ++ [.real a, .real b], funcs := fs, log := lg }
        = .ret 0 { stk := s ++ [.real x], funcs := fs, log := lg1 } := by
  cases op
  all_goals
    simp only [ArithOp.run]
    first
      | unfold F_std_add | unfold F_std_sub | unfold F_std_mul
      | unfold F_std_div | unfold F_std_mod | unfold F_std_pow
    rw [REQ_N_pass _ _ _ _ (by simp)]
    simp [ezc_obj.type, EZC_TYPE_INT, EZC_TYPE_REAL, ezc_stk_push, OBJ_FREE,
      ezc_vm.emit]

/-- The numeric-promotion lattice and the frame where the operation is
defined. For each of `add`, `sub`, `mul`, `div`, `mod`, `pow` and every stack
`s ++ [A, B]` whose operands are integers or reals (for `div` and `mod` on two
integers: the divisor non-zero, and not the most negative value with the
divisor -1), the operation returns 0 and the resulting stack is `s ++ [r]` for
a single value `r`, which has the type `int` exactly when both operands have
the type `int` and the type `real` otherwise; no value of `s` and no entry of
the registry is changed. -/
theorem promotion_lattice_defined {R : Type} (E : Env R) (op : ArithOp)
    (s : List (ezc_obj R)) (fs : List (String × ezc_func)) (lg : List (Event R))
    (A B : ezc_obj R) (hw : 1 < E.w)
    (hA : A.type = EZC_TYPE_INT ∨ A.type = EZC_TYPE_REAL)
    (hB : B.type = EZC_TYPE_INT ∨ B.type = EZC_TYPE_REAL)
    (hAwf : A.wf E.w) (hBwf : B.wf E.w)
    (hdiv : op = .div ∨ op = .mod → A.type = EZC_TYPE_INT → B ≠ .int 0)
    (hov : op = .div ∨ op = .mod →
      ¬ (A = .int (-(2 ^ (E.w - 1))) ∧ B = .int (-1))) :
    ∃ (r : ezc_obj R) (lg1 : List (Event R)),
      op.run E { stk := s ++ [A, B], funcs := fs, log := lg }
        = .ret 0 { stk := s ++ [r], funcs := fs, log := lg1 }
      ∧ (r.type = EZC_TYPE_INT ↔ A.type = EZC_TYPE_INT ∧ B.type = EZC_TYPE_INT)
      ∧ (r.type = EZC_TYPE_INT ∨ r.type = EZC_TYPE_REAL) := by
  cases A <;> simp [ezc_obj.type, EZC_TYPE_INT, EZC_TYPE_REAL, EZC_TYPE_NONE,
    EZC_TYPE_WALL, EZC_TYPE_BOOL, EZC_TYPE_STR, EZC_TYPE_BLOCK, EZC_TYPE_FILE] at hA
  all_goals
    cases B <;> simp [ezc_obj.type, EZC_TYPE_INT, EZC_TYPE_REAL, EZC_TYPE_NONE,
      EZC_TYPE_WALL, EZC_TYPE_BOOL, EZC_TYPE_STR, EZC_TYPE_BLOCK, EZC_TYPE_FILE] at hB
  · -- int, int
    rename_i a b
    have hb0 : op = .div ∨ op = .mod → b ≠ 0 := by
      intro h hb
      exact hdiv h rfl (by rw [hb])
    have hne : op = .div ∨ op = .mod → ¬ (a = -(2 ^ (E.w - 1)) ∧ b = -1) := by
      intro h hab
      exact hov h ⟨by rw [hab.1], by rw [hab.2]⟩
    cases op
    · exact ⟨_, _, F_std_add_int_int E s fs lg a b, by simp [ezc_obj.type], by simp [ezc_obj.type]⟩
    · exact ⟨_, _, F_std_sub_int_int E s fs lg a b, by simp [ezc_obj.type], by simp [ezc_obj.type]⟩
    · exact ⟨_, _, F_std_mul_int_int E s fs lg a b, by simp [ezc_obj.type], by simp [ezc_obj.type]⟩
    · exact ⟨_, _, F_std_div_int_int E s fs lg a b (hb0 (by simp)) (hne (by simp)),
        by simp [ezc_obj.type], by simp [ezc_obj.type]⟩
    · exact ⟨_, _, F_std_mod_int_int E s fs lg a b (hb0 (by simp)) (hne (by simp)),
        by simp [ezc_obj.type], by simp [ezc_obj.type]⟩
    · exact ⟨_, _, F_std_pow_int_int E s fs lg a b hw hAwf hBwf, by simp [ezc_obj.type],
        by simp [ezc_obj.type]⟩
  · rename_i a b
    obtain ⟨x, lg1, h⟩ := ArithOp_run_int_real E op s fs lg a b
    exact ⟨.real x, lg1, h, by simp [ezc_obj.type, EZC_TYPE_INT, EZC_TYPE_REAL],
      by simp [ezc_obj.type]⟩
  · rename_i a b
    obtain ⟨x, lg1, h⟩ := ArithOp_run_real_int E op s fs lg a b
    exact ⟨.real x, lg1, h, by simp [ezc_obj.type, EZC_TYPE_INT, EZC_TYPE_REAL],
      by simp [ezc_obj.type]⟩
  · rename_i a b
    obtain ⟨x, lg1, h⟩ := ArithOp_run_real_real E op s fs lg a b
    exact ⟨.real x, lg1, h, by simp [ezc_obj.type, EZC_TYPE_INT, EZC_TYPE_REAL],
      by simp [ezc_obj.type]⟩

/-- The instance of the specification with integers standing in for the
reals: `Real 2, Int 3 add` above an unrelated value leaves one value of type
`real` above that value. -/
theorem promotion_lattice_defined_example :
    ∃ (r : ezc_obj Int) (lg1 : List (Event Int)),
      ArithOp.add.run demoEnv { stk := [.wall] ++ [.real 2, .int 3], funcs := [], log := [] }
        = .ret 0 { stk := [.wall] ++ [r], funcs := [], log := lg1 }
      ∧ (r.type = EZC_TYPE_INT ↔
          (ezc_obj.real 2 : ezc_obj Int).type = EZC_TYPE_INT
            ∧ (ezc_obj.int 3 : ezc_obj Int).type = EZC_TYPE_INT)
      ∧ (r.type = EZC_TYPE_INT ∨ r.type = EZC_TYPE_REAL) :=
  promotion_lattice_defined demoEnv .add [.wall] [] [] (.real 2) (.int 3) (by decide)
    (by decide) (by decide) trivial (by show InRange 64 3; decide)
    (by intro h; cases h <;> contradiction)
    (by intro h; cases h <;> contradiction)

/-- C6: `div` and `mod` on two integers with a non-zero divisor that return
no status. With a 64-bit integer type and the stack
`[Wall, Int -9223372036854775808, Int -1]` both operands have the type `int`,
both are values of the integer type and the divisor is not zero, yet neither
`div` nor `mod` returns: the (int, int) branch divides with no test of the
operands and the quotient is not a value of the type. So for no value `r` is
the outcome the status 0 with the stack `[Wall, r]`. -/
theorem C6_div_mod_int_pair_without_result :
    (ezc_obj.int (-9223372036854775808) : ezc_obj Int).type = EZC_TYPE_INT
    ∧ (ezc_obj.int (-1) : ezc_obj Int).type = EZC_TYPE_INT
    ∧ (ezc_obj.int (-9223372036854775808) : ezc_obj Int).wf demoEnv.w
    ∧ (ezc_obj.int (-1) : ezc_obj Int).wf demoEnv.w
    ∧ (ezc_obj.int (-1) : ezc_obj Int) ≠ .int 0
    ∧ ArithOp.div.run demoEnv
        { stk := [.wall] ++ [.int (-9223372036854775808), .int (-1)],
          funcs := [], log := [] }
      = .crash .div_overflow
    ∧ ArithOp.mod.run demoEnv
        { stk := [.wall] ++ [.int (-9223372036854775808), .int (-1)],
          funcs := [], log := [] }
      = .crash .div_overflow
    ∧ (∀ op : ArithOp, op = .div ∨ op = .mod →
        ¬ ∃ (r : ezc_obj Int) (lg1 : List (Event Int)),
          op.run demoEnv
              { stk := [.wall] ++ [.int (-9223372036854775808), .int (-1)],
                funcs := [], log := [] }
            = .ret 0 { stk := [.wall] ++ [r], funcs := [], log := lg1 }) := by
  have hd : ArithOp.div.run demoEnv
        { stk := [.wall] ++ [.int (-9223372036854775808), .int (-1)],
          funcs := [], log := [] }
      = .crash .div_overflow := by decide
  have hm : ArithOp.mod.run demoEnv
        { stk := [.wall] ++ [.int (-9223372036854775808), .int (-1)],
          funcs := [], log := [] }
      = .crash .div_overflow := by decide
  refine ⟨by decide, by decide, by show InRange 64 _; decide,
    by show InRange 64 _; decide, by decide, hd, hm, ?_⟩
  rintro op (rfl | rfl) ⟨r, lg1, h⟩
  · rw [hd] at h
    cases h
  · rw [hm] at h
    cases h

/-! ## Indexed read and operand counts -/

/-- C8: `get` with the largest and with the smallest value of a 64-bit
integer type as the index, on the stack `[Int 10]`. Both indices are out of
range, yet neither call reports a failure: `idx + 1` and `-idx` wrap to the
smallest value, the stack passes the check `REQ_N`, and the slot at the index
is read outside the stack. -/
theorem C8_get_extreme_index_reads_outside :
    F_std_get demoEnv
        { stk := [.int 10, .int (2 ^ 63 - 1)], funcs := [], log := [] }
      = .crash .stack_read
    ∧ F_std_get demoEnv
        { stk := [.int 10, .int (-(2 ^ 63))], funcs := [], log := [] }
      = .crash .stack_read := by
  constructor <;> decide

theorem F_std_get_out_of_range {R : Type} (E : Env R) (s : List (ezc_obj R))
    (fs : List (String × ezc_func)) (lg : List (Event R)) (i : Int)
    (hw : 0 < E.w) (hmax : i + 1 < 2 ^ (E.w - 1)) (hmin : -(2 ^ (E.w - 1)) < i)
    (hout : (s.length : Int) ≤ i ∨ i < -(s.length : Int)) :
    F_std_get E { stk := s ++ [.int i], funcs := fs, log := lg }
      = .ret 1 { stk := s, funcs := fs,
                 log := lg ++ [.error ("%d items are required for function \x27" ++
                   "get" ++ "\x27, stack only had %d")] } := by
  unfold F_std_get
  rw [REQ_N_pass _ _ _ _ (by simp)]
  rw [ezc_stk_pop_snoc]
  dsimp only
  by_cases h0 : 0 ≤ i
  · rw [if_pos h0]
    have hr : InRange E.w (i + 1) := by
      constructor <;> omega
    rw [wrapInt_of_inRange hw hr, REQ_N_fail _ _ _ _ (by dsimp only; omega)]
    rfl
  · rw [if_neg h0, if_pos (by omega)]
    have hr : InRange E.w (-i) := by
      constructor <;> omega
    rw [wrapInt_of_inRange hw hr, REQ_N_fail _ _ _ _ (by dsimp only; omega)]
    rfl

/-- C9, as stated, fails: `get` on `[Int 10, Int 5]`, whose index 5 is out
of range for `[Int 10]`, reports the failure with status 1 and leaves the
stack `[Int 10]`: the index was popped before the range check. -/
theorem C9_get_failure_pops_index :
    ∃ (s : List (ezc_obj Int)) (i : Int) (status : Int) (vm1 : ezc_vm Int),
      ((s.length : Int) ≤ i ∨ i < -(s.length : Int))
      ∧ F_std_get demoEnv { stk := s ++ [.int i], funcs := [], log := [] }
          = .ret status vm1
      ∧ status ≠ 0
      ∧ vm1.stk ≠ s ++ [.int i] :=
  ⟨[.int 10], 5, 1,
    { stk := [.int 10], funcs := [],
      log := [.error "%d items are required for function \x27get\x27, stack only had %d"] },
    by decide, by decide, by decide, by decide⟩

/-- C9, amended: a failing `get` consumes the index and nothing else. For
every stack `s` and integer `i` out of range for `s`, other than the largest
and the smallest value of the integer type, `get` on `s ++ [Int i]` returns
the status 1, and afterwards the stack is exactly `s`: the index has been
popped, no value of `s` is read or changed, one error is reported. -/
theorem C9_get_failure_leaves_rest {R : Type} (E : Env R) (s : List (ezc_obj R))
    (fs : List (String × ezc_func)) (lg : List (Event R)) (i : Int)
    (hw : 0 < E.w) (hmax : i + 1 < 2 ^ (E.w - 1)) (hmin : -(2 ^ (E.w - 1)) < i)
    (hout : (s.length : Int) ≤ i ∨ i < -(s.length : Int)) :
    ∃ msg, F_std_get E { stk := s ++ [.int i], funcs := fs, log := lg }
      = .ret 1 { stk := s, funcs := fs, log := lg ++ [.error msg] } :=
  ⟨_, F_std_get_out_of_range E s fs lg i hw hmax hmin hout⟩

/-- C9, amended, at a concrete input: `get` on `[Int 10, Int 20, Int -3]`
returns 1 and leaves `[Int 10, Int 20]`. -/
theorem C9_get_failure_leaves_rest_witness :
    ∃ msg, F_std_get demoEnv
        { stk := [.int 10, .int 20] ++ [.int (-3)], funcs := [], log := [] }
      = .ret 1 { stk := [.int 10, .int 20], funcs := [], log := [] ++ [.error msg] } :=
  C9_get_failure_leaves_rest demoEnv [.int 10, .int 20] [] [] (-3)
    (by decide) (by decide) (by decide) (by decide)

/-- C10: operand-count underflow is a clean failure for every native. For
each of `del`(1), `copy`(1), `under`(2), `swap`(2), `funcdef`(2), `get`(1),
`exec`(1), `repr`(1), `print`(1), `add`, `sub`, `mul`, `div`, `mod`,
`pow`(2), `eq`(2), `ifel`(3), `foreach`(1), `forrange`(3), `open`(1),
`write`(2), `X`(1): when the stack holds fewer values than the number in
parentheses, the native returns the status 1, the stack and the registry are
as they were, and the only event is the report of one error: no block is
executed and no callback is called. -/
theorem C10_underflow_clean {R : Type} (E : Env R) (n : Native) (vm : ezc_vm R)
    (h : vm.stk.length < n.req_n) :
    ∃ msg, n.run E vm
      = .ret 1 { stk := vm.stk, funcs := vm.funcs, log := vm.log ++ [.error msg] } := by
  cases n <;>
    exact ⟨_, REQ_N_fail _ _ vm _ (by simp only [Native.req_n] at h; exact_mod_cast h)⟩

/-- C10, at a concrete input: `ifel` on a stack of two values returns 1 and
leaves the two values. -/
theorem C10_underflow_clean_witness :
    ∃ msg, Native.ifel.run demoEnv { stk := [.bool true, .int 2], funcs := [], log := [] }
      = .ret 1 { stk := [.bool true, .int 2], funcs := [], log := [] ++ [.error msg] } :=
  C10_underflow_clean demoEnv .ifel { stk := [.bool true, .int 2], funcs := [], log := [] }
    (by decide)

/-! ## Equality -/

theorem F_std_eq_mismatch {R : Type} (E : Env R) (s : List (ezc_obj R))
    (fs : List (String × ezc_func)) (lg : List (Event R)) (A B : ezc_obj R)
    (h : A.type ≠ B.type) :
    F_std_eq E { stk := s ++ [A, B], funcs := fs, log := lg }
      = .ret 1 { stk := s, funcs := fs,
                 log := lg ++ [.error "Invalid type combo for func \x60eq\x60: %s, %s",
                               .free A, .free B] } := by
  unfold F_std_eq
  rw [REQ_N_pass _ _ _ _ (by simp)]
  simp [h, ezc_error, OBJ_FREE, ezc_vm.emit]

/-- C13: `eq` never answers false for a type mismatch. For every stack
`s ++ [A, B]` in which `A` and `B` have different types, `eq` returns the
nonzero status 1 and leaves the stack exactly `s`: both operands are popped
and released, no `bool` is pushed, one error is reported. -/
theorem C13_eq_type_mismatch {R : Type} (E : Env R) (s : List (ezc_obj R))
    (fs : List (String × ezc_func)) (lg : List (Event R)) (A B : ezc_obj R)
    (h : A.type ≠ B.type) :
    ∃ msg, F_std_eq E { stk := s ++ [A, B], funcs := fs, log := lg }
      = .ret 1 { stk := s, funcs := fs,
                 log := lg ++ [.error msg, .free A, .free B] } :=
  ⟨_, F_std_eq_mismatch E s fs lg A B h⟩

/-- C13, at a concrete input: `eq` on `Int 1` and `Str "1"` above a wall
returns 1 and leaves the wall alone. -/
theorem C13_eq_type_mismatch_witness :
    ∃ msg, F_std_eq demoEnv { stk := [.wall] ++ [.int 1, .str "1"], funcs := [], log := [] }
      = .ret 1 { stk := [.wall], funcs := [],
                 log := [] ++ [.error msg, .free (.int 1), .free (.str "1")] } :=
  C13_eq_type_mismatch demoEnv [.wall] [] [] (.int 1) (.str "1") (by decide)

/-- C14: `eq` on integers. For every stack `s` and integers `a`, `b`, `eq` on
`s ++ [Int a, Int b]` returns 0 and leaves `s ++ [Bool (a = b)]`; both
operands are released. -/
theorem C14_eq_int {R : Type} (E : Env R) (s : List (ezc_obj R))
    (fs : List (String × ezc_func)) (lg : List (Event R)) (a b : Int) :
    F_std_eq E { stk := s ++ [.int a, .int b], funcs := fs, log := lg }
      = .ret 0 { stk := s ++ [.bool (decide (a = b))], funcs := fs,
                 log := lg ++ [.free (.int a), .free (.int b)] } := by
  unfold F_std_eq
  rw [REQ_N_pass _ _ _ _ (by simp)]
  simp [ezc_obj.type, ezc_stk_push, OBJ_FREE, ezc_vm.emit]

/-- C15: `eq` on two strings is a type error. For every stack `s` and strings
`x`, `y`, equal or not, `eq` on `s ++ [Str x, Str y]` returns the status 1,
pushes no `bool` and leaves the stack `s`: the only types compared are `int`
and `real`. -/
theorem C15_eq_str_is_error {R : Type} (E : Env R) (s : List (ezc_obj R))
    (fs : List (String × ezc_func)) (lg : List (Event R)) (x y : String) :
    F_std_eq E { stk := s ++ [.str x, .str y], funcs := fs, log := lg }
      = .ret 1 { stk := s, funcs := fs,
                 log := lg ++ [.error "Invalid type for func \x60eq\x60: %s",
                               .free (.str x), .free (.str y)] } := by
  unfold F_std_eq
  rw [REQ_N_pass _ _ _ _ (by simp)]
  simp [ezc_obj.type, ezc_error, OBJ_FREE, ezc_vm.emit]

/-! ## Conditional -/

theorem F_std_exec_block {R : Type} (E : Env R) (s : List (ezc_obj R))
    (fs : List (String × ezc_func)) (lg : List (Event R)) (b : ezci) :
    F_std_exec E { stk := s ++ [.block b], funcs := fs, log := lg }
      = match E.vm_exec (prog_of_block b)
            { stk := s, funcs := fs, log := lg ++ [.exec (prog_of_block b)] } with
        | .ret status vm1 =>
          .ret status { stk := vm1.stk, funcs := vm1.funcs,
                        log := vm1.log ++ [.free (.block b)] }
        | .crash f => .crash f := by
  unfold F_std_exec
  rw [REQ_N_pass _ _ _ _ (by simp)]
  simp only [ezc_stk_pop_snoc, ezc_vm_exec, ezc_vm.emit, OBJ_FREE]

theorem F_std_ifel_blocks {R : Type} (E : Env R) (s : List (ezc_obj R))
    (fs : List (String × ezc_func)) (lg : List (Event R)) (c : ezc_obj R)
    (bIf bElse : ezci) :
    F_std_ifel E { stk := s ++ [c, .block bIf, .block bElse], funcs := fs, log := lg }
      = match E.vm_exec (prog_of_block (if OBJ_TRUTHY c then bIf else bElse))
            { stk := s, funcs := fs,
              log := lg ++ [.exec (prog_of_block (if OBJ_TRUTHY c then bIf else bElse))] } with
        | .ret _ vm1 =>
          .ret 0 { stk := vm1.stk, funcs := vm1.funcs,
                   log := vm1.log ++
                     [.free (.block (if OBJ_TRUTHY c then bIf else bElse)),
                      .free (.block bElse), .free (.block bIf), .free c] }
        | .crash f => .crash f := by
  unfold F_std_ifel
  rw [REQ_N_pass _ _ _ _ (by simp)]
  simp only [ezc_stk_pop_snoc3, ezc_stk_pop_snoc2, ezc_stk_pop_snoc, ezc_stk_push]
  by_cases hc : OBJ_TRUTHY c = true
  · simp only [hc, if_true]
    rw [F_std_exec_block]
    cases E.vm_exec (prog_of_block bIf)
        { stk := s, funcs := fs, log := lg ++ [.exec (prog_of_block bIf)] } <;>
      simp [OBJ_FREE, ezc_vm.emit]
  · simp only [hc, if_false, Bool.false_eq_true]
    rw [F_std_exec_block]
    cases E.vm_exec (prog_of_block bElse)
        { stk := s, funcs := fs, log := lg ++ [.exec (prog_of_block bElse)] } <;>
      simp [OBJ_FREE, ezc_vm.emit]

/-- C16: `ifel` selects by truthiness. For every stack
`s ++ [c, Block bIf, Block bElse]`, `ifel` pops the three operands and hands
exactly one program to the engine, once, on the stack `s`: the program of
`bIf` when the condition is truthy and of `bElse` otherwise. The truthiness
of `Bool b` is `b`, of `Int n` it is `n != 0`, and of a value of any other
type (none, wall, real, str, block, file) it is false. -/
theorem C16_ifel_selects {R : Type} (E : Env R) (s : List (ezc_obj R))
    (fs : List (String × ezc_func)) (lg : List (Event R)) (c : ezc_obj R)
    (bIf bElse : ezci) :
    (F_std_ifel E { stk := s ++ [c, .block bIf, .block bElse], funcs := fs, log := lg }
      = match E.vm_exec (prog_of_block (if OBJ_TRUTHY c then bIf else bElse))
            { stk := s, funcs := fs,
              log := lg ++ [.exec (prog_of_block (if OBJ_TRUTHY c then bIf else bElse))] } with
        | .ret _ vm1 =>
          .ret 0 { stk := vm1.stk, funcs := vm1.funcs,
                   log := vm1.log ++
                     [.free (.block (if OBJ_TRUTHY c then bIf else bElse)),
                      .free (.block bElse), .free (.block bIf), .free c] }
        | .crash f => .crash f)
    ∧ (∀ b : Bool, OBJ_TRUTHY (.bool b : ezc_obj R) = b)
    ∧ (∀ n : Int, OBJ_TRUTHY (.int n : ezc_obj R) = decide (n ≠ 0))
    ∧ OBJ_TRUTHY (.none : ezc_obj R) = false
    ∧ OBJ_TRUTHY (.wall : ezc_obj R) = false
    ∧ (∀ r : R, OBJ_TRUTHY (.real r : ezc_obj R) = false)
    ∧ (∀ t : String, OBJ_TRUTHY (.str t : ezc_obj R) = false)
    ∧ (∀ b : ezci, OBJ_TRUTHY (.block b : ezc_obj R) = false)
    ∧ (∀ f : ezc_file, OBJ_TRUTHY (.file f : ezc_obj R) = false) := by
  refine ⟨F_std_ifel_blocks E s fs lg c bIf bElse, fun _ => rfl, ?_, rfl, rfl,
    fun _ => rfl, fun _ => rfl, fun _ => rfl, fun _ => rfl⟩
  intro n
  by_cases h : n = 0 <;> simp [OBJ_TRUTHY, h]

/-- C17: `ifel` does not propagate the status of the selected block. With an
engine that fails the block `bIf` with status 7, `ifel` on
`[Bool true, Block bIf, Block bElse]` returns 0; in general, whatever status
the engine returns for the selected program, `ifel` returns 0. -/
theorem C17_ifel_drops_status :
    F_std_ifel loopEnv
        { stk := [.bool true,
                  .block { type := 0, code := 1, m_prog := { src := "", src_name := "" } },
                  .block { type := 0, code := 0, m_prog := { src := "", src_name := "" } }],
          funcs := [], log := [] }
      = .ret 0
        { stk := [], funcs := [],
          log := [.exec (prog_of_block
                    { type := 0, code := 1, m_prog := { src := "", src_name := "" } }),
                  .free (.block { type := 0, code := 1, m_prog := { src := "", src_name := "" } }),
                  .free (.block { type := 0, code := 0, m_prog := { src := "", src_name := "" } }),
                  .free (.block { type := 0, code := 1, m_prog := { src := "", src_name := "" } }),
                  .free (.bool true)] }
    ∧ loopEnv.vm_exec
        (prog_of_block { type := 0, code := 1, m_prog := { src := "", src_name := "" } })
        { stk := [], funcs := [],
          log := [.exec (prog_of_block
                    { type := 0, code := 1, m_prog := { src := "", src_name := "" } })] }
      = .ret 7
        { stk := [], funcs := [],
          log := [.exec (prog_of_block
                    { type := 0, code := 1, m_prog := { src := "", src_name := "" } })] }
    ∧ ∀ {R : Type} (E : Env R) (s : List (ezc_obj R)) (fs : List (String × ezc_func))
        (lg : List (Event R)) (c : ezc_obj R) (bIf bElse : ezci) (status : Int)
        (vm1 : ezc_vm R),
        F_std_ifel E { stk := s ++ [c, .block bIf, .block bElse], funcs := fs, log := lg }
          ≠ .ret status vm1 ∨ status = 0 := by
  refine ⟨by decide, by decide, ?_⟩
  intro R E s fs lg c bIf bElse status vm1
  rw [F_std_ifel_blocks]
  cases E.vm_exec (prog_of_block (if OBJ_TRUTHY c then bIf else bElse))
      { stk := s, funcs := fs,
        log := lg ++ [.exec (prog_of_block (if OBJ_TRUTHY c then bIf else bElse))] } with
  | ret st vm2 =>
    by_cases h : status = 0
    · exact Or.inr h
    · left
      intro heq
      injection heq with h1 _
      exact h h1.symm
  | crash f =>
    left
    intro heq
    cases heq

/-! ## Loops -/

theorem foreach_num_to_iter_empty_run {R : Type} (t : List (ezc_obj R))
    (h : t = [] ∨ t.getLast? = some .wall) : foreach_num_to_iter t = 0 := by
  unfold foreach_num_to_iter
  rcases h with h | h
  · subst h
    rfl
  · obtain ⟨ys, rfl⟩ := List.getLast?_eq_some_iff.mp h
    simp [ezc_obj.type]

theorem foreach_num_to_iter_run {R : Type} (s vs : List (ezc_obj R))
    (hnw : ∀ v ∈ vs, v.type ≠ EZC_TYPE_WALL) :
    foreach_num_to_iter (s ++ [.wall] ++ vs) = vs.length := by
  unfold foreach_num_to_iter
  have hrev : (s ++ [ezc_obj.wall] ++ vs).reverse
      = vs.reverse ++ (ezc_obj.wall :: s.reverse) := by
    simp
  rw [hrev, List.takeWhile_append_of_pos, List.takeWhile_cons_of_neg]
  · simp
  · simp [ezc_obj.type]
  · intro a ha
    simpa using hnw a (List.mem_reverse.mp ha)

theorem F_std_foreach_walled {R : Type} (E : Env R) (s vs : List (ezc_obj R))
    (fs : List (String × ezc_func)) (lg : List (Event R)) (b : ezci)
    (hne : vs ≠ []) (hnw : ∀ v ∈ vs, v.type ≠ EZC_TYPE_WALL) :
    F_std_foreach E { stk := s ++ [.wall] ++ vs ++ [.block b], funcs := fs, log := lg }
      = foreach_loop E (prog_of_block b) vs { stk := s, funcs := fs, log := lg } := by
  have hlen : 0 < vs.length := List.length_pos.mpr hne
  unfold F_std_foreach
  rw [REQ_N_pass _ _ _ _ (by simp; omega)]
  rw [ezc_stk_pop_snoc]
  dsimp only
  rw [foreach_num_to_iter_run s vs hnw, if_neg (by omega)]
  have hoff : (s ++ [ezc_obj.wall] ++ vs).length - vs.length = (s ++ [ezc_obj.wall]).length := by
    simp
    omega
  rw [hoff, List.drop_left, List.take_left]
  unfold ezc_stk_peek
  rw [ezc_stk_peekn_zero_snoc]
  simp [ezc_obj.type]

/-- C19: `foreach` with an empty run. For every stack `t ++ [Block b]` where
`t` is empty or has a wall on top, `foreach` returns 0, hands nothing to the
engine, and leaves the stack exactly `t`: the wall, if any, stays; the block
is released. -/
theorem C19_foreach_empty_run {R : Type} (E : Env R) (t : List (ezc_obj R))
    (fs : List (String × ezc_func)) (lg : List (Event R)) (b : ezci)
    (h : t = [] ∨ t.getLast? = some .wall) :
    F_std_foreach E { stk := t ++ [.block b], funcs := fs, log := lg }
      = .ret 0 { stk := t, funcs := fs, log := lg ++ [.free (.block b)] } := by
  unfold F_std_foreach
  rw [REQ_N_pass _ _ _ _ (by simp)]
  rw [ezc_stk_pop_snoc]
  dsimp only
  rw [foreach_num_to_iter_empty_run t h, if_pos (by omega)]
  rfl

/-- C19, at concrete inputs: `foreach` on `[Int 5, Wall, Block b]` leaves
`[Int 5, Wall]`, and on `[Block b]` it leaves the empty stack; the engine of
the environment would have failed the block. -/
theorem C19_foreach_empty_run_witness :
    F_std_foreach loopEnv
        { stk := [.int 5, .wall] ++
            [.block { type := 0, code := 1, m_prog := { src := "", src_name := "" } }],
          funcs := [], log := [] }
      = .ret 0
        { stk := [.int 5, .wall], funcs := [],
          log := [] ++ [.free (.block
            { type := 0, code := 1, m_prog := { src := "", src_name := "" } })] }
    ∧ F_std_foreach loopEnv
        { stk := [] ++
            [.block { type := 0, code := 1, m_prog := { src := "", src_name := "" } }],
          funcs := [], log := [] }
      = .ret 0
        { stk := [], funcs := [],
          log := [] ++ [.free (.block
            { type := 0, code := 1, m_prog := { src := "", src_name := "" } })] } :=
  ⟨C19_foreach_empty_run loopEnv [.int 5, .wall] [] [] _ (Or.inr (by decide)),
   C19_foreach_empty_run loopEnv [] [] [] _ (Or.inl rfl)⟩

theorem foreach_loop_consuming {R : Type} (E : Env R) (p : ezcp)
    (fs : List (String × ezc_func)) (ev : ezc_obj R → List (Event R)) :
    ∀ (vs s : List (ezc_obj R)) (lg : List (Event R)),
    (∀ (t : List (ezc_obj R)) (x : ezc_obj R) (l : List (Event R)), x ∈ vs →
      E.vm_exec p { stk := t ++ [x], funcs := fs, log := l }
        = .ret 0 { stk := t, funcs := fs, log := l ++ ev x }) →
    foreach_loop E p vs { stk := s, funcs := fs, log := lg }
      = .ret 0 { stk := s, funcs := fs,
                 log := lg ++ vs.flatMap (fun x => .exec p :: ev x) } := by
  intro vs
  induction vs with
  | nil =>
    intro s lg _
    simp [foreach_loop]
  | cons v vs ih =>
    intro s lg hbody
    unfold foreach_loop
    simp only [ezc_vm_exec, ezc_stk_push, ezc_vm.emit]
    rw [hbody s v _ (List.mem_cons_self _ _)]
    simp only [ne_eq, not_true_eq_false, if_false]
    rw [ih s _ (fun t x l hx => hbody t x l (List.mem_cons_of_mem _ hx))]
    simp

/-- C18: `foreach` over a walled run. For every stack
`s ++ [Wall] ++ vs ++ [Block b]` where `vs` is non-empty and holds no wall,
`foreach` removes the block, the run `vs` and the one wall, and then runs the
loop over `vs` on the stack `s`: each value of `vs`, in bottom-to-top order,
is pushed and the program of `b` is handed to the engine once. When every run
of the body consumes exactly the pushed value and returns 0 (leaving the
events `ev x` in the record for the value `x`), the loop runs the body once
per value of `vs`, in that order, the final stack is `s` and the status is 0. -/
theorem C18_foreach_walled_run {R : Type} (E : Env R) (s vs : List (ezc_obj R))
    (fs : List (String × ezc_func)) (lg : List (Event R)) (b : ezci)
    (ev : ezc_obj R → List (Event R))
    (hne : vs ≠ []) (hnw : ∀ v ∈ vs, v.type ≠ EZC_TYPE_WALL)
    (hbody : ∀ (t : List (ezc_obj R)) (x : ezc_obj R) (l : List (Event R)), x ∈ vs →
      E.vm_exec (prog_of_block b) { stk := t ++ [x], funcs := fs, log := l }
        = .ret 0 { stk := t, funcs := fs, log := l ++ ev x }) :
    F_std_foreach E { stk := s ++ [.wall] ++ vs ++ [.block b], funcs := fs, log := lg }
      = foreach_loop E (prog_of_block b) vs { stk := s, funcs := fs, log := lg }
    ∧ F_std_foreach E { stk := s ++ [.wall] ++ vs ++ [.block b], funcs := fs, log := lg }
      = .ret 0 { stk := s, funcs := fs,
                 log := lg ++ vs.flatMap (fun x => .exec (prog_of_block b) :: ev x) } := by
  have h1 := F_std_foreach_walled E s vs fs lg b hne hnw
  refine ⟨h1, ?_⟩
  rw [h1]
  exact foreach_loop_consuming E (prog_of_block b) fs ev vs s lg hbody

theorem F_std_print_ok {R : Type} (E : Env R) (t : List (ezc_obj R))
    (fs : List (String × ezc_func)) (l : List (Event R)) (x : ezc_obj R)
    (text : String) (h : OBJ_REPR E x = .ok text) :
    F_std_print E { stk := t ++ [x], funcs := fs, log := l }
      = .ret 0 { stk := t, funcs := fs, log := l ++ [.print (text ++ "\n"), .free x] } := by
  unfold F_std_print
  rw [REQ_N_pass _ _ _ _ (by simp)]
  rw [ezc_stk_pop_snoc]
  simp [h, OBJ_FREE, ezc_vm.emit]

/-- C18, the instance of the specification: `foreach` over
`[Wall, Int 1, Int 2, Int 3]` with the body `print!` consumes the wall and
the three integers, runs the body three times, with 1, 2, 3 pushed in that
order, and leaves the stack empty. -/
theorem C18_foreach_walled_run_witness :
    F_std_foreach loopEnv
        { stk := [] ++ [.wall] ++ [.int 1, .int 2, .int 3] ++
            [.block { type := 0, code := 0, m_prog := { src := "", src_name := "" } }],
          funcs := [], log := [] }
      = .ret 0
        { stk := [], funcs := [],
          log := [.exec (prog_of_block
                    { type := 0, code := 0, m_prog := { src := "", src_name := "" } }),
                  .print "1\n", .free (.int 1),
                  .exec (prog_of_block
                    { type := 0, code := 0, m_prog := { src := "", src_name := "" } }),
                  .print "2\n", .free (.int 2),
                  .exec (prog_of_block
                    { type := 0, code := 0, m_prog := { src := "", src_name := "" } }),
                  .print "3\n", .free (.int 3)] } := by
  have h := (C18_foreach_walled_run loopEnv [] [.int 1, .int 2, .int 3] [] []
    { type := 0, code := 0, m_prog := { src := "", src_name := "" } }
    (fun x => match OBJ_REPR demoEnv x with
      | .ok text => [.print (text ++ "\n"), .free x]
      | .error _ => [])
    (by decide) (by decide)
    (by
      intro t x l hx
      have hx1 : x = .int 1 ∨ x = .int 2 ∨ x = .int 3 := by simpa using hx
      rcases hx1 with rfl | rfl | rfl
      · exact F_std_print_ok demoEnv t [] l (.int 1) "1" (by decide)
      · exact F_std_print_ok demoEnv t [] l (.int 2) "2" (by decide)
      · exact F_std_print_ok demoEnv t [] l (.int 3) "3" (by decide))).2
  exact h

theorem foreach_loop_stops {R : Type} (E : Env R) (p : ezcp) (x : ezc_obj R)
    (rest : List (ezc_obj R)) (status : Int) (vm1 vm2 : ezc_vm R) :
    ∀ (pre : List (ezc_obj R)) (vm : ezc_vm R),
    foreach_loop E p pre vm = .ret 0 vm1 →
    E.vm_exec p ((ezc_stk_push vm1 x).emit (.exec p)) = .ret status vm2 →
    status ≠ 0 →
    foreach_loop E p (pre ++ x :: rest) vm = .ret status vm2 := by
  intro pre
  induction pre with
  | nil =>
    intro vm h0 hx hst
    simp only [foreach_loop] at h0
    injection h0 with _ hvm
    subst hvm
    simp only [List.nil_append, foreach_loop, ezc_vm_exec, hx]
    rw [if_pos hst]
  | cons y pre ih =>
    intro vm h0 hx hst
    simp only [List.cons_append, foreach_loop, ezc_vm_exec] at h0 ⊢
    cases hy : E.vm_exec p ((ezc_stk_push vm y).emit (.exec p)) with
    | crash f =>
      rw [hy] at h0
      cases h0
    | ret s1 v1 =>
      rw [hy] at h0
      simp only at h0 ⊢
      by_cases hs1 : s1 ≠ 0
      · rw [if_pos hs1] at h0
        injection h0 with h1 _
        exact absurd h1 hs1
      · rw [if_neg hs1] at h0
        rw [if_neg hs1]
        exact ih v1 h0 hx hst

theorem forrange_loop_stops {R : Type} (E : Env R) (p : ezcp) (imax j : Int)
    (done : ezc_vm R → ezc_vm R) (status : Int) (vm1 vm2 : ezc_vm R)
    (hj : j < imax)
    (hx : E.vm_exec p ((ezc_stk_push vm1 (.int j)).emit (.exec p)) = .ret status vm2)
    (hst : status ≠ 0) :
    ∀ (n : Nat) (imin : Int) (vm : ezc_vm R) (fuel : Nat),
    (j - imin).toNat = n → imin ≤ j → (imax - imin).toNat ≤ fuel →
    forrange_loop E p j (fun v => v) n imin vm = .ret 0 vm1 →
    forrange_loop E p imax done fuel imin vm = .ret status (done vm2) := by
  intro n
  induction n with
  | zero =>
    intro imin vm fuel hn hle hfuel h0
    have hij : imin = j := by omega
    subst hij
    simp only [forrange_loop, lt_self_iff_false, if_false] at h0
    injection h0 with _ hvm
    subst hvm
    obtain ⟨f, rfl⟩ : ∃ f, fuel = f + 1 := ⟨fuel - 1, by omega⟩
    simp only [forrange_loop, if_pos hj, ezc_vm_exec, hx]
    rw [if_pos hst]
  | succ n ih =>
    intro imin vm fuel hn hle hfuel h0
    have hlt : imin < j := by omega
    obtain ⟨f, rfl⟩ : ∃ f, fuel = f + 1 := ⟨fuel - 1, by omega⟩
    simp only [forrange_loop, if_pos hlt, ezc_vm_exec] at h0
    simp only [forrange_loop, if_pos (lt_trans hlt hj), ezc_vm_exec]
    cases hy : E.vm_exec p ((ezc_stk_push vm (.int imin)).emit (.exec p)) with
    | crash f0 =>
      rw [hy] at h0
      cases h0
    | ret s1 v1 =>
      rw [hy] at h0
      simp only at h0 ⊢
      by_cases hs1 : s1 ≠ 0
      · rw [if_pos hs1] at h0
        injection h0 with h1 _
        exact absurd h1 hs1
      · rw [if_neg hs1] at h0
        rw [if_neg hs1]
        exact ih (imin + 1) v1 f (by omega) (by omega) (by omega) h0

theorem F_std_forrange_ints {R : Type} (E : Env R) (s : List (ezc_obj R))
    (fs : List (String × ezc_func)) (lg : List (Event R)) (lo hi : Int) (b : ezci) :
    F_std_forrange E { stk := s ++ [.int lo, .int hi, .block b], funcs := fs, log := lg }
      = forrange_loop E (prog_of_block b) (wrapInt E.wint hi)
          (fun v => OBJ_FREE (OBJ_FREE (OBJ_FREE v (.block b)) (.int lo)) (.int hi))
          (wrapInt E.wint hi - wrapInt E.wint lo).toNat (wrapInt E.wint lo)
          { stk := s, funcs := fs, log := lg } := by
  unfold F_std_forrange
  rw [REQ_N_pass _ _ _ _ (by simp)]
  simp only [ezc_stk_pop_snoc3, ezc_stk_pop_snoc2, ezc_stk_pop_snoc]

/-- C20: loops stop at the first failure. In `foreach` (over a walled run
`pre ++ x :: rest`) and in `forrange` (over the indices from the lower bound
up, as stored in `int` variables): when the runs of the body before the
`k`-th one all returned 0 and left the state `vm1` (the loop over `pre`,
resp. over the indices below `j`, returns 0 with `vm1`), and the `k`-th run,
on `vm1` with the value `x`, resp. the index `j`, pushed, returns a nonzero
status with the state `vm2`, then the native returns exactly that status
with the state `vm2`, in `forrange` after the release of its three operands:
no further value is pushed and the body is not run again. -/
theorem C20_loops_stop_at_first_failure {R : Type} (E : Env R)
    (s : List (ezc_obj R)) (fs : List (String × ezc_func)) (lg : List (Event R))
    (b : ezci) (status : Int) (hst : status ≠ 0) :
    (∀ (pre : List (ezc_obj R)) (x : ezc_obj R) (rest : List (ezc_obj R))
        (vm1 vm2 : ezc_vm R),
      (∀ v ∈ pre ++ x :: rest, v.type ≠ EZC_TYPE_WALL) →
      foreach_loop E (prog_of_block b) pre { stk := s, funcs := fs, log := lg }
        = .ret 0 vm1 →
      E.vm_exec (prog_of_block b) ((ezc_stk_push vm1 x).emit (.exec (prog_of_block b)))
        = .ret status vm2 →
      F_std_foreach E
          { stk := s ++ [.wall] ++ (pre ++ x :: rest) ++ [.block b], funcs := fs, log := lg }
        = .ret status vm2)
    ∧ (∀ (lo hi j : Int) (vm1 vm2 : ezc_vm R),
      wrapInt E.wint lo ≤ j → j < wrapInt E.wint hi →
      forrange_loop E (prog_of_block b) j (fun v => v)
          (j - wrapInt E.wint lo).toNat (wrapInt E.wint lo)
          { stk := s, funcs := fs, log := lg }
        = .ret 0 vm1 →
      E.vm_exec (prog_of_block b)
          ((ezc_stk_push vm1 (.int j)).emit (.exec (prog_of_block b)))
        = .ret status vm2 →
      F_std_forrange E
          { stk := s ++ [.int lo, .int hi, .block b], funcs := fs, log := lg }
        = .ret status
            { stk := vm2.stk, funcs := vm2.funcs,
              log := vm2.log ++ [.free (.block b), .free (.int lo), .free (.int hi)] }) := by
  constructor
  · intro pre x rest vm1 vm2 hnw h0 hx
    rw [F_std_foreach_walled E s (pre ++ x :: rest) fs lg b (by simp) hnw]
    exact foreach_loop_stops E (prog_of_block b) x rest status vm1 vm2 pre _ h0 hx hst
  · intro lo hi j vm1 vm2 hlo hhi h0 hx
    rw [F_std_forrange_ints]
    have h := forrange_loop_stops E (prog_of_block b) (wrapInt E.wint hi) j
      (fun v => OBJ_FREE (OBJ_FREE (OBJ_FREE v (.block b)) (.int lo)) (.int hi))
      status vm1 vm2 hhi hx hst _ (wrapInt E.wint lo) { stk := s, funcs := fs, log := lg }
      (wrapInt E.wint hi - wrapInt E.wint lo).toNat rfl hlo (le_refl _) h0
    rw [h]
    simp [OBJ_FREE, ezc_vm.emit]

/-- C20, at concrete inputs, with the body that prints the top and fails with
status 7 on `Int 2`: `foreach` over `[Wall, Int 1, Int 2, Int 3]` and
`forrange` over the bounds 1 and 4 both return 7 after the second run,
leaving the pushed `Int 2`; the value 3 is not pushed. -/
theorem C20_loops_stop_at_first_failure_witness :
    F_std_foreach loopEnv
        { stk := [] ++ [.wall] ++ ([.int 1] ++ .int 2 :: [.int 3]) ++
            [.block { type := 0, code := 2, m_prog := { src := "", src_name := "" } }],
          funcs := [], log := [] }
      = .ret 7
        { stk := [.int 2], funcs := [],
          log := [.exec (prog_of_block
                    { type := 0, code := 2, m_prog := { src := "", src_name := "" } }),
                  .print "1\n", .free (.int 1),
                  .exec (prog_of_block
                    { type := 0, code := 2, m_prog := { src := "", src_name := "" } })] }
    ∧ F_std_forrange loopEnv
        { stk := [] ++ [.int 1, .int 4,
            .block { type := 0, code := 2, m_prog := { src := "", src_name := "" } }],
          funcs := [], log := [] }
      = .ret 7
        { stk := [.int 2], funcs := [],
          log := [.exec (prog_of_block
                    { type := 0, code := 2, m_prog := { src := "", src_name := "" } }),
                  .print "1\n", .free (.int 1),
                  .exec (prog_of_block
                    { type := 0, code := 2, m_prog := { src := "", src_name := "" } })] ++
                 [.free (.block
                    { type := 0, code := 2, m_prog := { src := "", src_name := "" } }),
                  .free (.int 1), .free (.int 4)] } := by
  obtain ⟨h1, h2⟩ := C20_loops_stop_at_first_failure loopEnv [] [] []
    { type := 0, code := 2, m_prog := { src := "", src_name := "" } } 7 (by decide)
  exact ⟨h1 [.int 1] (.int 2) [.int 3]
      { stk := [], funcs := [],
        log := [.exec (prog_of_block
                  { type := 0, code := 2, m_prog := { src := "", src_name := "" } }),
                .print "1\n", .free (.int 1)] }
      _ (by decide) (by decide) (by decide),
    h2 1 4 2
      { stk := [], funcs := [],
        log := [.exec (prog_of_block
                  { type := 0, code := 2, m_prog := { src := "", src_name := "" } }),
                .print "1\n", .free (.int 1)] }
      { stk := [.int 2], funcs := [],
        log := [.exec (prog_of_block
                  { type := 0, code := 2, m_prog := { src := "", src_name := "" } }),
                .print "1\n", .free (.int 1),
                .exec (prog_of_block
                  { type := 0, code := 2, m_prog := { src := "", src_name := "" } })] }
      (by decide) (by decide) (by decide) (by decide)⟩

/-! ## Type mismatch in the arithmetic natives -/

theorem ArithOp_run_cross_mismatch {R : Type} (E : Env R) (op : ArithOp)
    (s : List (ezc_obj R)) (fs : List (String × ezc_func)) (lg : List (Event R))
    (A B : ezc_obj R) (hop : op ≠ .pow) (hne : A.type ≠ B.type)
    (h1 : ¬ (A.type = EZC_TYPE_INT ∧ B.type = EZC_TYPE_REAL))
    (h2 : ¬ (A.type = EZC_TYPE_REAL ∧ B.type = EZC_TYPE_INT)) :
    op.run E { stk := s ++ [A, B], funcs := fs, log := lg }
      = .ret (-1) { stk := s, funcs := fs,
                    log := lg ++ [.free B, .free A,
                      .error ("Invalid type combo for func \x60" ++ op.fname ++
                        "\x60: %s, %s")] } := by
  cases op
  case pow => exact absurd rfl hop
  all_goals
    simp only [ArithOp.run]
    first
      | unfold F_std_add | unfold F_std_sub | unfold F_std_mul
      | unfold F_std_div | unfold F_std_mod
    rw [REQ_N_pass _ _ _ _ (by simp)]
    simp only [ezc_stk_peekn_zero_snoc2, ezc_stk_peekn_one_snoc2]
    rw [if_neg hne]
    split
    · exact absurd ⟨rfl, rfl⟩ h1
    · exact absurd ⟨rfl, rfl⟩ h2
    · simp only [POP_FREE, ezc_stk_pop_snoc2, ezc_stk_pop_snoc, OBJ_FREE, ezc_vm.emit,
        TT_TYPE_ER, ezc_error, List.append_assoc, List.cons_append, List.nil_append]
      rfl

theorem ArithOp_run_same_mismatch {R : Type} (E : Env R) (op : ArithOp)
    (s : List (ezc_obj R)) (fs : List (String × ezc_func)) (lg : List (Event R))
    (A B : ezc_obj R) (hop : op ≠ .pow) (he : A.type = B.type)
    (hi : A.type ≠ EZC_TYPE_INT) (hr : A.type ≠ EZC_TYPE_REAL)
    (hs : op = .add → A.type ≠ EZC_TYPE_STR) :
    op.run E { stk := s ++ [A, B], funcs := fs, log := lg }
      = .ret (-1) { stk := s ++ [A, B], funcs := fs,
                    log := lg ++ [.error ("Invalid type combo for func \x60" ++ op.fname ++
                        "\x60: %s, %s")] } := by
  cases op
  case pow => exact absurd rfl hop
  case add =>
    simp only [ArithOp.run]
    unfold F_std_add
    rw [REQ_N_pass _ _ _ _ (by simp)]
    simp only [ezc_stk_peekn_zero_snoc2, ezc_stk_peekn_one_snoc2]
    rw [if_pos he]
    split
    · exact absurd rfl (hs rfl)
    · exact absurd rfl hi
    · exact absurd rfl hr
    · rfl
  all_goals
    simp only [ArithOp.run]
    first
      | unfold F_std_sub | unfold F_std_mul | unfold F_std_div | unfold F_std_mod
    rw [REQ_N_pass _ _ _ _ (by simp)]
    simp only [ezc_stk_peekn_zero_snoc2, ezc_stk_peekn_one_snoc2]
    rw [if_pos he]
    split
    · exact absurd rfl hi
    · exact absurd rfl hr
    · rfl

theorem F_std_pow_same_mismatch {R : Type} (E : Env R)
    (s : List (ezc_obj R)) (fs : List (String × ezc_func)) (lg : List (Event R))
    (A B : ezc_obj R) (he : A.type = B.type)
    (hi : A.type ≠ EZC_TYPE_INT) (hr : A.type ≠ EZC_TYPE_REAL) :
    F_std_pow E { stk := s ++ [A, B], funcs := fs, log := lg }
      = .ret 1 { stk := s, funcs := fs,
                 log := lg ++ [.error "Invalid type for func \x60pow\x60: %s",
                               .free A, .free B] } := by
  unfold F_std_pow
  rw [REQ_N_pass _ _ _ _ (by simp)]
  simp only [ezc_stk_pop_snoc2, ezc_stk_pop_snoc]
  rw [if_pos he]
  split
  · exact absurd rfl hi
  · exact absurd rfl hr
  · simp [ezc_error, OBJ_FREE, ezc_vm.emit]

theorem F_std_pow_cross_mismatch {R : Type} (E : Env R)
    (s : List (ezc_obj R)) (fs : List (String × ezc_func)) (lg : List (Event R))
    (x y A B : ezc_obj R) (hne : A.type ≠ B.type)
    (h1 : ¬ (A.type = EZC_TYPE_INT ∧ B.type = EZC_TYPE_REAL))
    (h2 : ¬ (A.type = EZC_TYPE_REAL ∧ B.type = EZC_TYPE_INT)) :
    F_std_pow E { stk := s ++ [x, y] ++ [A, B], funcs := fs, log := lg }
      = .ret (-1) { stk := s, funcs := fs,
                    log := lg ++ [.free y, .free x,
                      .error "Invalid type combo for func \x60mod\x60: %s, %s"] } := by
  unfold F_std_pow
  rw [REQ_N_pass _ _ _ _ (by simp; omega)]
  simp only [ezc_stk_pop_snoc2, ezc_stk_pop_snoc]
  rw [if_neg hne]
  split
  · exact absurd ⟨rfl, rfl⟩ h1
  · exact absurd ⟨rfl, rfl⟩ h2
  · simp [POP_FREE, TT_TYPE_ER, ezc_error, OBJ_FREE, ezc_vm.emit]

/-- C11, as stated, fails: `add` on two strings is not a type mismatch. On
`[Str "a", Str "b"]`, a pair of operand types that is none of the four
numeric pairings, `add` returns 0 and pushes the concatenation `Str "ab"`. -/
theorem C11_add_str_concatenates :
    ArithOp.add.run demoEnv { stk := [.str "a", .str "b"], funcs := [], log := [] }
      = .ret 0 { stk := [.str "ab"], funcs := [], log := [.free (.str "b")] }
    ∧ ¬ (((.str "a" : ezc_obj Int).type = EZC_TYPE_INT
          ∨ (.str "a" : ezc_obj Int).type = EZC_TYPE_REAL)
        ∧ ((.str "b" : ezc_obj Int).type = EZC_TYPE_INT
          ∨ (.str "b" : ezc_obj Int).type = EZC_TYPE_REAL)) := by
  decide

/-- C11, amended: any non-numeric pairing is a type mismatch, but for two
strings under `add`. For each of `add`, `sub`, `mul`, `div`, `mod`, `pow` and
every stack `s ++ [A, B]` whose pair of operand types is not one of (int,
int), (real, real), (int, real), (real, int), and is not (str, str) when the
operation is `add`, and whose two types are equal when the operation is
`pow`: the operation returns a nonzero status and pushes no result, the
stack afterwards being a prefix of `s ++ [A, B]`; the registry is unchanged. -/
theorem C11_mismatch_fails {R : Type} (E : Env R) (op : ArithOp)
    (s : List (ezc_obj R)) (fs : List (String × ezc_func)) (lg : List (Event R))
    (A B : ezc_obj R)
    (hpair : ¬ ((A.type = EZC_TYPE_INT ∨ A.type = EZC_TYPE_REAL)
              ∧ (B.type = EZC_TYPE_INT ∨ B.type = EZC_TYPE_REAL)))
    (hstr : ¬ (op = .add ∧ A.type = EZC_TYPE_STR ∧ B.type = EZC_TYPE_STR))
    (hpow : op = .pow → A.type = B.type) :
    ∃ (status : Int) (vm1 : ezc_vm R),
      op.run E { stk := s ++ [A, B], funcs := fs, log := lg } = .ret status vm1
      ∧ status ≠ 0
      ∧ vm1.stk <+: s ++ [A, B]
      ∧ vm1.funcs = fs := by
  by_cases he : A.type = B.type
  · have hi : A.type ≠ EZC_TYPE_INT := fun h => hpair ⟨Or.inl h, Or.inl (he ▸ h)⟩
    have hr : A.type ≠ EZC_TYPE_REAL := fun h => hpair ⟨Or.inr h, Or.inr (he ▸ h)⟩
    by_cases hop : op = .pow
    · subst hop
      exact ⟨1, _, F_std_pow_same_mismatch E s fs lg A B he hi hr, by decide,
        List.prefix_append _ _, rfl⟩
    · exact ⟨-1, _, ArithOp_run_same_mismatch E op s fs lg A B hop he hi hr
          (fun h hs => hstr ⟨h, hs, he ▸ hs⟩),
        by decide, List.prefix_refl _, rfl⟩
  · have hop : op ≠ .pow := fun h => he (hpow h)
    exact ⟨-1, _, ArithOp_run_cross_mismatch E op s fs lg A B hop he
        (fun h => hpair ⟨Or.inl h.1, Or.inr h.2⟩)
        (fun h => hpair ⟨Or.inr h.1, Or.inl h.2⟩),
      by decide, List.prefix_append _ _, rfl⟩

/-- C11, amended, at a concrete input: `mul` on `Str "a"` and `Int 2` above a
wall returns a nonzero status and leaves a prefix of the stack. -/
theorem C11_mismatch_fails_witness :
    ∃ (status : Int) (vm1 : ezc_vm Int),
      ArithOp.mul.run demoEnv
          { stk := [.wall] ++ [.str "a", .int 2], funcs := [], log := [] }
        = .ret status vm1
      ∧ status ≠ 0
      ∧ vm1.stk <+: [.wall] ++ [.str "a", .int 2]
      ∧ vm1.funcs = [] :=
  C11_mismatch_fails demoEnv .mul [.wall] [] [] (.str "a") (.int 2)
    (by decide) (by decide) (by decide)

/-- C12: a type mismatch does not always consume exactly the two operands.
`sub` on `[Int 7, Bool true, Bool false]` (operands of one non-numeric type)
fails with status -1 and leaves all three values: nothing is popped. `pow`
on `[Int 7, Int 8, Str "a", Int 1]` (operands of different types) fails with
status -1 and leaves the empty stack: after the two operands it pops and
releases two more values; on `[Str "a", Int 1]` these two further pops read
below the stack. -/
theorem C12_mismatch_not_two_operands :
    F_std_sub demoEnv
        { stk := [.int 7, .bool true, .bool false], funcs := [], log := [] }
      = .ret (-1)
        { stk := [.int 7, .bool true, .bool false], funcs := [],
          log := [.error "Invalid type combo for func \x60sub\x60: %s, %s"] }
    ∧ F_std_pow demoEnv
        { stk := [.int 7, .int 8, .str "a", .int 1], funcs := [], log := [] }
      = .ret (-1)
        { stk := [], funcs := [],
          log := [.free (.int 8), .free (.int 7),
                  .error "Invalid type combo for func \x60mod\x60: %s, %s"] }
    ∧ F_std_pow demoEnv { stk := [.str "a", .int 1], funcs := [], log := [] }
      = .crash .stack_read := by
  decide

/-! ## Function registry: definition and call -/

theorem ezc_vm_getfunci_absent {R : Type} (vm : ezc_vm R) (n : String)
    (h : ∀ e ∈ vm.funcs, e.1 ≠ n) : ezc_vm_getfunci vm n = -1 := by
  unfold ezc_vm_getfunci
  have hnone : vm.funcs.findIdx? (fun e => e.1 == n) = Option.none := by
    rw [List.findIdx?_eq_none_iff]
    intro e he
    simpa using h e he
  rw [hnone]

theorem findIdx?_shift {α : Type} (p : α → Bool) :
    ∀ (l : List α) (k : Nat),
      List.findIdx? p l (k + 1) = (List.findIdx? p l k).map (· + 1) := by
  intro l
  induction l with
  | nil => intro k; rfl
  | cons x xs ih =>
    intro k
    rw [List.findIdx?_cons, List.findIdx?_cons]
    by_cases hx : p x = true
    · simp [hx]
    · simp only [hx, if_false]
      exact ih (k + 1)

theorem dict_set_lookup (n : String) (f : ezc_func) :
    ∀ l : List (String × ezc_func),
      ∃ i : Nat,
        (if l.any (fun e => e.1 == n)
          then l.map (fun e => if e.1 == n then (n, f) else e)
          else l ++ [(n, f)]).findIdx? (fun e => e.1 == n) = some i
        ∧ (if l.any (fun e => e.1 == n)
          then l.map (fun e => if e.1 == n then (n, f) else e)
          else l ++ [(n, f)])[i]? = some (n, f) := by
  intro l
  induction l with
  | nil => exact ⟨0, by simp [List.findIdx?_cons], by simp⟩
  | cons e l ih =>
    by_cases he : (e.1 == n) = true
    · have hen : e.1 = n := by simpa using he
      refine ⟨0, ?_, ?_⟩
      · simp [List.any_cons, hen, List.findIdx?_cons]
      · simp [List.any_cons, hen]
    · obtain ⟨i, h1, h2⟩ := ih
      have hb : (e.1 == n) = false := by simpa using he
      refine ⟨i + 1, ?_, ?_⟩
      · by_cases ha : l.any (fun e => e.1 == n) = true
        · simp only [List.any_cons, hb, Bool.false_or, ha, if_true, List.map_cons,
            Bool.false_eq_true, if_false] at h1 ⊢
          rw [List.findIdx?_cons, hb, if_neg (by simp), findIdx?_shift, h1]
          rfl
        · simp only [List.any_cons, hb, Bool.false_or, ha, if_false, List.cons_append,
            Bool.false_eq_true] at h1 ⊢
          rw [List.findIdx?_cons, hb, if_neg (by simp), findIdx?_shift, h1]
          rfl
      · by_cases ha : l.any (fun e => e.1 == n) = true
        · simp only [List.any_cons, hb, Bool.false_or, ha, if_true, List.map_cons,
            Bool.false_eq_true, if_false] at h2 ⊢
          simpa using h2
        · simp only [List.any_cons, hb, Bool.false_or, ha, if_false, List.cons_append,
            Bool.false_eq_true] at h2 ⊢
          simpa using h2

theorem ezc_vm_addfunc_lookup {R : Type} (vm : ezc_vm R) (n : String) (f : ezc_func) :
    ∃ i : Nat, ezc_vm_getfunci (ezc_vm_addfunc vm n f) n = (i : Int)
      ∧ (ezc_vm_addfunc vm n f).funcs[i]? = some (n, f)
      ∧ (ezc_vm_addfunc vm n f).stk = vm.stk
      ∧ (ezc_vm_addfunc vm n f).log = vm.log := by
  obtain ⟨i, h1, h2⟩ := dict_set_lookup n f vm.funcs
  refine ⟨i, ?_, ?_, ?_, ?_⟩
  · unfold ezc_vm_getfunci ezc_vm_addfunc
    by_cases ha : vm.funcs.any (fun e => e.1 == n) = true
    · simp only [ha, if_true] at h1 ⊢
      rw [h1]
    · simp only [ha, if_false, Bool.false_eq_true] at h1 ⊢
      rw [h1]
  · unfold ezc_vm_addfunc
    by_cases ha : vm.funcs.any (fun e => e.1 == n) = true
    · simp only [ha, if_true] at h2 ⊢
      exact h2
    · simp only [ha, if_false, Bool.false_eq_true] at h2 ⊢
      exact h2
  · unfold ezc_vm_addfunc
    split <;> rfl
  · unfold ezc_vm_addfunc
    split <;> rfl

theorem F_std_exec_bound_name {R : Type} (E : Env R) (s : List (ezc_obj R))
    (fs : List (String × ezc_func)) (lg : List (Event R)) (n : String) (b : ezci)
    (i : Nat)
    (hi : ezc_vm_getfunci { stk := s, funcs := fs, log := lg } n = (i : Int))
    (hb : fs[i]? = some (n, .ezc b)) :
    F_std_exec E { stk := s ++ [.str n], funcs := fs, log := lg }
      = match E.vm_exec (prog_of_block b)
            { stk := s, funcs := fs, log := lg ++ [.exec (prog_of_block b)] } with
        | .ret status vm1 =>
          .ret status { stk := vm1.stk, funcs := vm1.funcs,
                        log := vm1.log ++ [.free (.str n)] }
        | .crash f => .crash f := by
  unfold F_std_exec
  rw [REQ_N_pass _ _ _ _ (by simp)]
  simp only [ezc_stk_pop_snoc]
  rw [hi, if_neg (by omega)]
  simp only [Int.toNat_ofNat, hb, ezc_vm_exec, ezc_vm.emit, OBJ_FREE]

/-- C22: `exec` on an unknown name. For every stack `s` and every string `n`
that is the key of no entry of the function registry, `exec` on
`s ++ [Str n]` returns the nonzero status -1 and leaves the stack exactly
`s`; the only event is the report of one error, so no callback is called and
no program is handed to the engine. Likewise for an operand that is neither a
string nor a block. -/
theorem C22_exec_unknown {R : Type} (E : Env R) (s : List (ezc_obj R))
    (fs : List (String × ezc_func)) (lg : List (Event R)) (n : String)
    (A : ezc_obj R) (hn : ∀ e ∈ fs, e.1 ≠ n)
    (hA1 : A.type ≠ EZC_TYPE_STR) (hA2 : A.type ≠ EZC_TYPE_BLOCK) :
    (∃ msg, F_std_exec E { stk := s ++ [.str n], funcs := fs, log := lg }
      = .ret (-1) { stk := s, funcs := fs, log := lg ++ [.error msg] })
    ∧ (∃ msg, F_std_exec E { stk := s ++ [A], funcs := fs, log := lg }
      = .ret (-1) { stk := s, funcs := fs, log := lg ++ [.error msg] }) := by
  constructor
  · refine ⟨"Unknown function: \x27%s\x27", ?_⟩
    unfold F_std_exec
    rw [REQ_N_pass _ _ _ _ (by simp)]
    simp only [ezc_stk_pop_snoc]
    rw [ezc_vm_getfunci_absent _ n hn, if_pos (by decide)]
    rfl
  · refine ⟨"Invalid type for \x60!\x60 / \x60exec\x60: \x27%s\x27", ?_⟩
    unfold F_std_exec
    rw [REQ_N_pass _ _ _ _ (by simp)]
    simp only [ezc_stk_pop_snoc]
    cases A
    case str => exact absurd rfl hA1
    case block => exact absurd rfl hA2
    all_goals rfl

/-- C22, at a concrete input: with the registry holding only `sq`, `exec` on
`[Int 4, Str "cube"]` and on `[Int 4, Bool true]` returns -1 and leaves
`[Int 4]`. -/
theorem C22_exec_unknown_witness :
    (∃ msg, F_std_exec demoEnv
        { stk := [.int 4] ++ [.str "cube"], funcs := [("sq", .c 0)], log := [] }
      = .ret (-1) { stk := [.int 4], funcs := [("sq", .c 0)], log := [] ++ [.error msg] })
    ∧ (∃ msg, F_std_exec demoEnv
        { stk := [.int 4] ++ [.bool true], funcs := [("sq", .c 0)], log := [] }
      = .ret (-1) { stk := [.int 4], funcs := [("sq", .c 0)], log := [] ++ [.error msg] }) :=
  C22_exec_unknown demoEnv [.int 4] [("sq", .c 0)] [] "cube" (.bool true)
    (by decide) (by decide) (by decide)

theorem F_std_funcdef_ok {R : Type} (E : Env R) (s : List (ezc_obj R))
    (fs : List (String × ezc_func)) (lg : List (Event R)) (n : String) (b : ezci) :
    F_std_funcdef E { stk := s ++ [.block b, .str n], funcs := fs, log := lg }
      = .ret 0
        { stk := s,
          funcs := (ezc_vm_addfunc { stk := s, funcs := fs, log := lg } n (.ezc b)).funcs,
          log := lg ++ [.free (.str n), .free (.block b)] } := by
  obtain ⟨_, _, _, hs, hl⟩ :=
    ezc_vm_addfunc_lookup { stk := s, funcs := fs, log := lg } n (.ezc b)
  unfold F_std_funcdef
  rw [REQ_N_pass _ _ _ _ (by simp)]
  simp only [ezc_stk_pop_snoc2, ezc_stk_pop_snoc, OBJ_FREE, ezc_vm.emit]
  simp only [hs, hl, List.append_assoc, List.cons_append, List.nil_append]

/-- C23: defining then calling a function equals running its block. A
`funcdef` on `t ++ [Block b, Str n]` returns 0 and leaves a registry in which
(whatever was bound to `n` before) `exec` on `s ++ [Str n]` and `exec` on
`s ++ [Block b]` do the same for every stack `s` and record `l`: the program
built has the body `b` with the source text and source name of the program
`b` comes from, it is handed to the engine once on the stack `s`, and the
status and the stack the engine leaves are returned; the two calls differ
only in the operand they release afterwards. -/
theorem C23_funcdef_then_exec {R : Type} (E : Env R) (t : List (ezc_obj R))
    (fs : List (String × ezc_func)) (lg : List (Event R)) (n : String) (b : ezci) :
    ∃ fs1 : List (String × ezc_func),
      F_std_funcdef E { stk := t ++ [.block b, .str n], funcs := fs, log := lg }
        = .ret 0 { stk := t, funcs := fs1,
                   log := lg ++ [.free (.str n), .free (.block b)] }
      ∧ (prog_of_block b).body = b
      ∧ (prog_of_block b).src = b.m_prog.src
      ∧ (prog_of_block b).src_name = b.m_prog.src_name
      ∧ ∀ (s : List (ezc_obj R)) (l : List (Event R)),
          F_std_exec E { stk := s ++ [.str n], funcs := fs1, log := l }
            = (match E.vm_exec (prog_of_block b)
                  { stk := s, funcs := fs1, log := l ++ [.exec (prog_of_block b)] } with
              | .ret status vm1 =>
                .ret status { stk := vm1.stk, funcs := vm1.funcs,
                              log := vm1.log ++ [.free (.str n)] }
              | .crash f => .crash f)
          ∧ F_std_exec E { stk := s ++ [.block b], funcs := fs1, log := l }
            = (match E.vm_exec (prog_of_block b)
                  { stk := s, funcs := fs1, log := l ++ [.exec (prog_of_block b)] } with
              | .ret status vm1 =>
                .ret status { stk := vm1.stk, funcs := vm1.funcs,
                              log := vm1.log ++ [.free (.block b)] }
              | .crash f => .crash f) := by
  obtain ⟨i, h1, h2, _, _⟩ :=
    ezc_vm_addfunc_lookup { stk := t, funcs := fs, log := lg } n (.ezc b)
  refine ⟨_, F_std_funcdef_ok E t fs lg n b, rfl, rfl, rfl, ?_⟩
  intro s l
  exact ⟨F_std_exec_bound_name E s _ l n b i h1 h2, F_std_exec_block E s _ l b⟩

/-- C24, as stated, fails: `funcdef` on `[Str "f", Block b]`, the block on
top and the name directly beneath it, returns -1: the value popped first is
taken for the name and is not a string. Nothing is bound. -/
theorem C24_funcdef_block_on_top_fails :
    F_std_funcdef demoEnv
        { stk := [.str "f",
                  .block { type := 0, code := 0, m_prog := { src := "", src_name := "" } }],
          funcs := [], log := [] }
      = .ret (-1)
        { stk := [], funcs := [],
          log := [.error
            "\x60name\x60 is not type \x60str\x60 in:\n[body] [name] funcdef!"] } := by
  decide

/-- C24, amended: `funcdef` pops the name first and the block second. For
every stack `s ++ [Block b, Str n]` (the name on top, the block directly
beneath it) `funcdef` returns 0, leaves the stack `s`, and binds `n` to `b`:
afterwards the lookup of `n` gives the position of the entry `(n, b)`. It
returns the nonzero status -1, with the registry unchanged, when the top
value is not a string, and when the top value is a string and the value
beneath it is not a block. -/
theorem C24_funcdef_name_on_top {R : Type} (E : Env R) (s : List (ezc_obj R))
    (fs : List (String × ezc_func)) (lg : List (Event R)) (n : String) (b : ezci)
    (X A B : ezc_obj R) (hB : B.type ≠ EZC_TYPE_STR) (hA : A.type ≠ EZC_TYPE_BLOCK) :
    (∃ (fs1 : List (String × ezc_func)) (i : Nat),
      F_std_funcdef E { stk := s ++ [.block b, .str n], funcs := fs, log := lg }
        = .ret 0 { stk := s, funcs := fs1,
                   log := lg ++ [.free (.str n), .free (.block b)] }
      ∧ ezc_vm_getfunci { stk := s, funcs := fs1, log := lg } n = (i : Int)
      ∧ fs1[i]? = some (n, .ezc b))
    ∧ (∃ msg, F_std_funcdef E { stk := s ++ [X, B], funcs := fs, log := lg }
        = .ret (-1) { stk := s, funcs := fs, log := lg ++ [.error msg] })
    ∧ (∃ msg, F_std_funcdef E { stk := s ++ [A, .str n], funcs := fs, log := lg }
        = .ret (-1) { stk := s, funcs := fs, log := lg ++ [.error msg] }) := by
  refine ⟨?_, ?_, ?_⟩
  · obtain ⟨i, h1, h2, _, _⟩ :=
      ezc_vm_addfunc_lookup { stk := s, funcs := fs, log := lg } n (.ezc b)
    exact ⟨_, i, F_std_funcdef_ok E s fs lg n b, h1, h2⟩
  · refine ⟨"\x60name\x60 is not type \x60str\x60 in:\n[body] [name] funcdef!", ?_⟩
    unfold F_std_funcdef
    rw [REQ_N_pass _ _ _ _ (by simp)]
    simp only [ezc_stk_pop_snoc2, ezc_stk_pop_snoc]
    cases B
    case str => exact absurd rfl hB
    all_goals rfl
  · refine ⟨"\x60body\x60 is not type \x60block\x60 in:\n[body] [name] funcdef!", ?_⟩
    unfold F_std_funcdef
    rw [REQ_N_pass _ _ _ _ (by simp)]
    simp only [ezc_stk_pop_snoc2, ezc_stk_pop_snoc]
    cases A
    case block => exact absurd rfl hA
    all_goals rfl

/-- C24, amended, at a concrete input: `funcdef` on `[Wall, Block b, Str "f"]`
returns 0, leaves the wall and binds `f`; on `[Wall, Int 1, Int 2]` and on
`[Wall, Int 1, Str "f"]` it returns -1. -/
theorem C24_funcdef_name_on_top_witness :
    (∃ (fs1 : List (String × ezc_func)) (i : Nat),
      F_std_funcdef demoEnv
          { stk := [.wall] ++
              [.block { type := 0, code := 5, m_prog := { src := "", src_name := "" } },
               .str "f"],
            funcs := [], log := [] }
        = .ret 0 { stk := [.wall], funcs := fs1,
                   log := [] ++ [.free (.str "f"),
                     .free (.block
                       { type := 0, code := 5, m_prog := { src := "", src_name := "" } })] }
      ∧ ezc_vm_getfunci { stk := ([.wall] : List (ezc_obj Int)), funcs := fs1, log := [] } "f"
          = (i : Int)
      ∧ fs1[i]? = some ("f", .ezc
          { type := 0, code := 5, m_prog := { src := "", src_name := "" } }))
    ∧ (∃ msg, F_std_funcdef demoEnv
          { stk := [.wall] ++ [.int 1, .int 2], funcs := [], log := [] }
        = .ret (-1) { stk := [.wall], funcs := [], log := [] ++ [.error msg] })
    ∧ (∃ msg, F_std_funcdef demoEnv
          { stk := [.wall] ++ [.int 1, .str "f"], funcs := [], log := [] }
        = .ret (-1) { stk := [.wall], funcs := [], log := [] ++ [.error msg] }) :=
  C24_funcdef_name_on_top demoEnv [.wall] [] [] "f"
    { type := 0, code := 5, m_prog := { src := "", src_name := "" } }
    (.int 1) (.int 1) (.int 2) (by decide) (by decide)

/-! ## Range loop, ownership, duplication -/

/-- C21: `forrange` with a bound outside the range of `int`. With a 64-bit
integer type and a 32-bit `int`, `forrange` on
`[Int 0, Int 4294967296, Block b]` stores the upper bound in an `int`, where
it is 0: the body is not run at all (no program is handed to the engine) and
0 is returned, where the half-open range from 0 to 4294967296 has 4294967296
indices. On `[Int 4294967296, Int 4294967298, Block b]` the body `print!`
runs twice, with the indices 0 and 1 pushed, not 4294967296 and 4294967297. -/
theorem C21_forrange_truncates_bounds :
    F_std_forrange loopEnv
        { stk := [.int 0, .int 4294967296,
                  .block { type := 0, code := 0, m_prog := { src := "", src_name := "" } }],
          funcs := [], log := [] }
      = .ret 0
        { stk := [], funcs := [],
          log := [.free (.block
                    { type := 0, code := 0, m_prog := { src := "", src_name := "" } }),
                  .free (.int 0), .free (.int 4294967296)] }
    ∧ F_std_forrange loopEnv
        { stk := [.int 4294967296, .int 4294967298,
                  .block { type := 0, code := 0, m_prog := { src := "", src_name := "" } }],
          funcs := [], log := [] }
      = .ret 0
        { stk := [], funcs := [],
          log := [.exec (prog_of_block
                    { type := 0, code := 0, m_prog := { src := "", src_name := "" } }),
                  .print "0\n", .free (.int 0),
                  .exec (prog_of_block
                    { type := 0, code := 0, m_prog := { src := "", src_name := "" } }),
                  .print "1\n", .free (.int 1),
                  .free (.block
                    { type := 0, code := 0, m_prog := { src := "", src_name := "" } }),
                  .free (.int 4294967296), .free (.int 4294967298)] } := by
  decide

/-- C25: failure paths that neither push back nor release what they popped.
`funcdef` on `[Int 1, Int 2]` and on `[Int 1, Str "f"]`, `forrange` with a
body, an upper bound or a lower bound of the wrong type, and `exec` on an
unknown name all return a nonzero status with the popped values gone from
the stack and no release in the record. `foreach` whose second run fails
returns its status 7 with the block and the value 3, both taken off the
stack, neither pushed back nor released. -/
theorem C25_failure_paths_drop_operands :
    F_std_funcdef demoEnv { stk := [.int 1, .int 2], funcs := [], log := [] }
      = .ret (-1)
        { stk := [], funcs := [],
          log := [.error "\x60name\x60 is not type \x60str\x60 in:\n[body] [name] funcdef!"] }
    ∧ F_std_funcdef demoEnv { stk := [.int 1, .str "f"], funcs := [], log := [] }
      = .ret (-1)
        { stk := [], funcs := [],
          log := [.error "\x60body\x60 is not type \x60block\x60 in:\n[body] [name] funcdef!"] }
    ∧ F_std_forrange demoEnv { stk := [.int 0, .int 3, .str "b"], funcs := [], log := [] }
      = .ret 1
        { stk := [], funcs := [],
          log := [.error "forrange!: body was not type \x60block\x60 (got \x60%s\x60)"] }
    ∧ F_std_forrange demoEnv
        { stk := [.int 0, .str "3",
                  .block { type := 0, code := 0, m_prog := { src := "", src_name := "" } }],
          funcs := [], log := [] }
      = .ret 1
        { stk := [], funcs := [],
          log := [.error "forrange!: upper bound was not type \x60int\x60 (got \x60%s\x60)"] }
    ∧ F_std_forrange demoEnv
        { stk := [.str "0", .int 3,
                  .block { type := 0, code := 0, m_prog := { src := "", src_name := "" } }],
          funcs := [], log := [] }
      = .ret 1
        { stk := [], funcs := [],
          log := [.error "forrange!: lower bound was not type \x60int\x60 (got \x60%s\x60)"] }
    ∧ F_std_exec demoEnv { stk := [.str "nope"], funcs := [], log := [] }
      = .ret (-1)
        { stk := [], funcs := [], log := [.error "Unknown function: \x27%s\x27"] }
    ∧ F_std_foreach loopEnv
        { stk := [.wall, .int 1, .int 2, .int 3,
                  .block { type := 0, code := 2, m_prog := { src := "", src_name := "" } }],
          funcs := [], log := [] }
      = .ret 7
        { stk := [.int 2], funcs := [],
          log := [.exec (prog_of_block
                    { type := 0, code := 2, m_prog := { src := "", src_name := "" } }),
                  .print "1\n", .free (.int 1),
                  .exec (prog_of_block
                    { type := 0, code := 2, m_prog := { src := "", src_name := "" } })] } := by
  decide

/-- C27: `pow` on operands of different, not both numeric, types removes more
than its two operands. On `[Wall, Int 5, Bool true, Int 2]` it returns -1 and
leaves the empty stack, of which `[Wall, Int 5]` is no prefix: the wall and
`Int 5` were popped and released as well. On `[Bool true, Int 2]` the two
further pops are made on the empty stack. -/
theorem C27_pow_pops_beyond_operands :
    F_std_pow demoEnv
        { stk := [.wall, .int 5] ++ [.bool true, .int 2], funcs := [], log := [] }
      = .ret (-1)
        { stk := [], funcs := [],
          log := [.free (.int 5), .free .wall,
                  .error "Invalid type combo for func \x60mod\x60: %s, %s"] }
    ∧ ¬ (([.wall, .int 5] : List (ezc_obj Int)) <+: [])
    ∧ F_std_pow demoEnv { stk := [] ++ [.bool true, .int 2], funcs := [], log := [] }
      = .crash .stack_read := by
  decide

/-- C28: `foreach` on a stack with no wall under the block. On
`[Int 1, Int 2, Block b]` the run reaches the bottom of the stack; after the
two values are taken off, the check for a wall reads the top of the empty
stack, a read outside the stack, before any run of the body. -/
theorem C28_foreach_peeks_empty_stack :
    F_std_foreach loopEnv
        { stk := [.int 1, .int 2,
                  .block { type := 0, code := 0, m_prog := { src := "", src_name := "" } }],
          funcs := [], log := [] }
      = .crash .stack_read
    ∧ ezc_stk_peek ({ stk := [], funcs := [], log := [] } : ezc_vm Int)
        (fun _ => .ret 0 { stk := [], funcs := [], log := [] })
      = .crash .stack_read := by
  decide

/-- C29: integer `div` and `mod` with the divisor zero. For every stack `s`
and integer `a`, `div` and `mod` on `s ++ [Int a, Int 0]` report nothing and
return no status: the operand types are found to be (int, int) and the
division `a / 0`, resp. `a % 0`, is performed. -/
theorem C29_int_div_mod_by_zero {R : Type} (E : Env R) (s : List (ezc_obj R))
    (fs : List (String × ezc_func)) (lg : List (Event R)) (a : Int) :
    F_std_div E { stk := s ++ [.int a, .int 0], funcs := fs, log := lg }
      = .crash .div_by_zero
    ∧ F_std_mod E { stk := s ++ [.int a, .int 0], funcs := fs, log := lg }
      = .crash .div_by_zero := by
  constructor
  · unfold F_std_div
    rw [REQ_N_pass _ _ _ _ (by simp)]
    simp [ezc_obj.type]
  · unfold F_std_mod
    rw [REQ_N_pass _ _ _ _ (by simp)]
    simp [ezc_obj.type]

/-- C30: the int render operation on the most negative value of a 64-bit
integer type. The negation wraps to the value itself, which is negative, so
the first index `val % base` is -8 and the read of the digit table is
outside the table. -/
theorem C30_repr_int_min_index :
    wrapInt 64 (-(-(2 ^ 63))) = -(2 ^ 63)
    ∧ Int.tmod (-(2 ^ 63)) 10 = -8
    ∧ digit_at (-8) = Option.none
    ∧ EZC_TF_REPR_int 64 (-(2 ^ 63)) = .error .digit_index := by
  decide

/-! ## Supporting facts: the loops and the rendering inside their domain -/

theorem forrange_loop_consuming {R : Type} (E : Env R) (p : ezcp) (imax : Int)
    (done : ezc_vm R → ezc_vm R) (fs : List (String × ezc_func))
    (ev : Int → List (Event R))
    (hbody : ∀ (t : List (ezc_obj R)) (j : Int) (l : List (Event R)),
      E.vm_exec p { stk := t ++ [.int j], funcs := fs, log := l }
        = .ret 0 { stk := t, funcs := fs, log := l ++ ev j }) :
    ∀ (fuel : Nat) (i : Int) (s : List (ezc_obj R)) (lg : List (Event R)),
      (imax - i).toNat ≤ fuel →
      forrange_loop E p imax done fuel i { stk := s, funcs := fs, log := lg }
        = .ret 0 (done (ezc_vm.mk s fs
            (lg ++ (List.range (imax - i).toNat).flatMap
              (fun k => .exec p :: ev (i + (k : Int)))))) := by
  intro fuel
  induction fuel with
  | zero =>
    intro i s lg hf
    have h0 : (imax - i).toNat = 0 := by omega
    unfold forrange_loop
    rw [if_neg (by omega), h0]
    simp
  | succ fuel ih =>
    intro i s lg hf
    unfold forrange_loop
    by_cases hlt : i < imax
    · rw [if_pos hlt]
      simp only [ezc_vm_exec, ezc_stk_push, ezc_vm.emit]
      rw [hbody s i _]
      simp only [ne_eq, not_true_eq_false, if_false]
      rw [ih (i + 1) s _ (by omega)]
      have hn : (imax - i).toNat = (imax - (i + 1)).toNat + 1 := by omega
      rw [hn, List.range_succ_eq_map]
      simp only [List.flatMap_cons, List.flatMap_map, Nat.cast_zero, add_zero,
        List.append_assoc, List.cons_append, List.nil_append, Function.comp]
      have hfun : (fun k : Nat => Event.exec p :: ev (i + 1 + (k : Int)))
          = (fun a : Nat => Event.exec p :: ev (i + ((a.succ : Nat) : Int))) := by
        funext k
        have : i + 1 + (k : Int) = i + ((k.succ : Nat) : Int) := by
          push_cast
          ring
        rw [this]
      rw [hfun]
    · rw [if_neg hlt]
      have h0 : (imax - i).toNat = 0 := by omega
      rw [h0]
      simp

theorem F_std_forrange_consuming {R : Type} (E : Env R) (s : List (ezc_obj R))
    (fs : List (String × ezc_func)) (lg : List (Event R)) (lo hi : Int) (b : ezci)
    (ev : Int → List (Event R)) (hw : 0 < E.wint)
    (hlo : InRange E.wint lo) (hhi : InRange E.wint hi)
    (hbody : ∀ (t : List (ezc_obj R)) (j : Int) (l : List (Event R)),
      E.vm_exec (prog_of_block b) { stk := t ++ [.int j], funcs := fs, log := l }
        = .ret 0 { stk := t, funcs := fs, log := l ++ ev j }) :
    F_std_forrange E { stk := s ++ [.int lo, .int hi, .block b], funcs := fs, log := lg }
      = .ret 0
        { stk := s, funcs := fs,
          log := lg ++ (List.range (hi - lo).toNat).flatMap
              (fun k => .exec (prog_of_block b) :: ev (lo + (k : Int)))
            ++ [.free (.block b), .free (.int lo), .free (.int hi)] } := by
  rw [F_std_forrange_ints, wrapInt_of_inRange hw hlo, wrapInt_of_inRange hw hhi,
    forrange_loop_consuming E (prog_of_block b) hi _ fs ev hbody _ lo s lg (le_refl _)]
  simp [OBJ_FREE, ezc_vm.emit]

theorem digits_length_le_63 (w : Nat) (hw : w ≤ 128) (n : Nat)
    (hn : (n : Int) ≤ 2 ^ (w - 1)) : (Nat.digits 10 n).length ≤ 63 := by
  rcases Nat.eq_zero_or_pos n with h | h
  · subst h
    simp
  · rw [Nat.digits_len 10 n (by norm_num) (by omega)]
    have h1 : n ≤ 2 ^ (w - 1) := by exact_mod_cast hn
    have h2 : 2 ^ (w - 1) ≤ 2 ^ 127 := Nat.pow_le_pow_right (by norm_num) (by omega)
    have h3 : (2 : Nat) ^ 127 < 10 ^ 63 := by norm_num
    have h4 : Nat.log 10 n < 63 := Nat.log_lt_of_lt_pow (by omega) (by omega)
    omega

theorem EZC_TF_REPR_int_ok (w : Nat) (v : Int) (hw : 0 < w) (hw2 : w ≤ 128)
    (hv : InRange w v) (hmin : v ≠ -(2 ^ (w - 1))) :
    ∃ text : List Char,
      EZC_TF_REPR_int w v = .ok (String.mk text) ∧ text.length ≤ 64 := by
  obtain ⟨hlo, hhi⟩ := hv
  rcases lt_trichotomy v 0 with hneg | hzero | hpos
  · -- a negative value other than the most negative one
    have hr : InRange w (-v) := by
      constructor <;> omega
    obtain ⟨n, hn⟩ := Int.eq_ofNat_of_zero_le (by omega : 0 ≤ -v)
    have hnpos : 0 < n := by omega
    have hd := digits_length_le_63 w hw2 n (by omega)
    unfold EZC_TF_REPR_int
    simp only [hneg, if_true, decide_True, List.length_singleton]
    rw [wrapInt_of_inRange hw hr, hn,
      repr_int_digits_spec 63 ['-'] n hnpos hd]
    simp only []
    obtain ⟨out, ho, hol, _⟩ := repr_int_reverse_spec
      (['-'] ++ List.map Nat.digitChar (Nat.digits 10 n)).length
      (['-'] ++ List.map Nat.digitChar (Nat.digits 10 n)) 1
      (['-'] ++ List.map Nat.digitChar (Nat.digits 10 n)).length rfl (by omega)
    rw [ho]
    refine ⟨_, rfl, ?_⟩
    rw [List.length_take, hol]
    simp
    omega
  · subst hzero
    exact ⟨['0'], by rfl, by simp⟩
  · obtain ⟨n, rfl⟩ := Int.eq_ofNat_of_zero_le (le_of_lt hpos)
    have hnpos : 0 < n := by omega
    have hd := digits_length_le_63 w hw2 n (by omega)
    have hnn : ¬ ((n : Int) < 0) := by omega
    unfold EZC_TF_REPR_int
    simp only [hnn, if_false, decide_False, List.length_nil, Nat.sub_zero]
    rw [repr_int_digits_spec 64 [] n hnpos (by omega)]
    simp only [List.nil_append, Bool.false_eq_true, if_false]
    rw [repr_int_reverse_all]
    refine ⟨_, rfl, ?_⟩
    rw [List.length_take]
    simp
    omega

end Ezc
